import Mathlib

/-!
# Verification of the Lisa collateral-backed credit ledger

Shallow embedding of the three core contracts of this repository:
`ZeroStaking.sol` (collateral ledger), `ZeroDebt.sol` (debt ledger) and
`strategies/MorphoStrategy.sol` (yield strategy adapter).

Conventions of the embedding:
* addresses and uint256 values are `Nat`; Solidity 0.8 checked arithmetic
  is modelled by explicit guards that return an `Except.error` (a revert)
  exactly where the EVM would revert;
* contract storage mappings become Lean functions with pointwise update;
* every external entry point becomes a function
  `... → World → Except String World`, an `.error` result standing for a
  revert with no state change;
* ERC20 token movements are modelled by a global balance ledger
  `token → holder → Nat`; `safeTransfer`/`safeTransferFrom` revert when the
  source balance is insufficient (allowance is assumed granted, as the
  repository's callers always approve first);
* the yield strategy adapter is modelled at its interface boundary: a
  configured strategy receives and returns the exact asset amounts that
  `deposit`/`withdraw` are called with, held at the strategy's address.
-/

/-! ## Data model, contract entry points and concrete states -/

/-- Token balance ledger: `token → holder → amount`. -/
abbrev Bal := Nat → Nat → Nat

/-- Pointwise update of a one-argument map. -/
def upd1 {α : Type} (f : Nat → α) (x : Nat) (v : α) : Nat → α :=
  fun a => if a = x then v else f a

/-- Pointwise update of a two-argument map. -/
def upd2 {α : Type} (f : Nat → Nat → α) (x y : Nat) (v : α) : Nat → Nat → α :=
  fun a b => if a = x ∧ b = y then v else f a b

/-- `IERC20.safeTransfer` / `safeTransferFrom`: move `amt` of `token` from
`source` to `dest`.  Reverts on the zero token address — `SafeERC20` calls
into the token contract and `address(0)` can never hold code, so the call
fails (this is what makes e.g. any transfer of a zero `DebtInfo`'s token
revert on chain) — and reverts when the source balance is insufficient. -/
def transferTok (b : Bal) (token source dest amt : Nat) : Except String Bal :=
  if token = 0 then .error "Address: call to non-contract"
  else if amt ≤ b token source then
    let b1 := upd2 b token source (b token source - amt)
    .ok (upd2 b1 token dest (b1 token dest + amt))
  else .error "ERC20: insufficient balance"

deriving instance DecidableEq for Except

/-- `struct StakeInfo` of `ZeroStaking.sol`. -/
structure StakeInfo where
  amount : Nat
  lockedAmount : Nat
  lastUpdateTime : Nat

deriving DecidableEq, Repr

/-- Storage of the `ZeroStaking` contract.  The `yieldStrategy` field is the
strategy's address, `0` (the zero address) meaning no strategy configured,
exactly as the source compares against `address(0)`. -/
structure StakingState where
  owner : Nat
  stakes : Nat → Nat → StakeInfo
  supportedTokens : Nat → Bool
  collateralRatio : Nat
  zeroDebtContract : Nat
  yieldStrategy : Nat
  totalRewards : Nat → Nat
  userRewards : Nat → Nat → Nat
  lastRewardUpdate : Nat → Nat → Nat

/-- `struct DebtInfo` of `ZeroDebt.sol`. -/
structure DebtInfo where
  borrower : Nat
  merchant : Nat
  token : Nat
  amount : Nat
  collateralToken : Nat
  collateralAmount : Nat
  repaymentDeadline : Nat
  penalty : Nat
  repaid : Bool
  liquidated : Bool

deriving DecidableEq, Repr

/-- The zero value of `DebtInfo`, what an unset slot of the `debts` mapping
reads as in Solidity. -/
def zeroDebtInfo : DebtInfo :=
  ⟨0, 0, 0, 0, 0, 0, 0, 0, false, false⟩

/-- Storage of the `ZeroDebt` contract. -/
structure DebtState where
  owner : Nat
  platformFee : Nat
  defaultPenalty : Nat
  minimumRepaymentPeriod : Nat
  maximumRepaymentPeriod : Nat
  debts : Nat → DebtInfo
  nextDebtId : Nat
  userDebts : Nat → List Nat
  merchantDebts : Nat → List Nat
  authorizedIntegrators : Nat → Bool

/-- Deployment configuration: the addresses at which the two core contracts
live (needed because token balances are indexed by holder address and the
debt ledger authenticates itself to the collateral ledger by address). -/
structure Cfg where
  stakingAddr : Nat
  debtAddr : Nat

deriving DecidableEq, Repr

/-- The combined on-chain state the claims quantify over. -/
structure World where
  staking : StakingState
  debt : DebtState
  bal : Bal

/-- `ZeroStaking._updateRewards`.  Note that the source reads and writes the
`lastRewardUpdate` mapping, not `StakeInfo.lastUpdateTime`, and returns
early (without touching the clock) when no strategy is set, when the staked
amount is zero, or when no time has elapsed. -/
def updateRewards (user token now apy : Nat) (s : StakingState) :
    Except String StakingState :=
  if s.yieldStrategy = 0 then .ok s
  else if (s.stakes user token).amount = 0 then .ok s
  else if now < s.lastRewardUpdate user token then .error "arithmetic underflow"
  else
    let te := now - s.lastRewardUpdate user token
    if te = 0 then .ok s
    else
      let reward := (s.stakes user token).amount * apy * te / (31536000 * 10000)
      .ok { s with
        userRewards := upd2 s.userRewards user token (s.userRewards user token + reward)
        totalRewards := upd1 s.totalRewards token (s.totalRewards token + reward)
        lastRewardUpdate := upd2 s.lastRewardUpdate user token now }

/-- `ZeroStaking.stake`.  `apy` is the value the configured strategy's
`getAPY` returns during this call (an external input). -/
def stake (cfg : Cfg) (caller token amount now apy : Nat) (w : World) :
    Except String World :=
  if ¬ (w.staking.supportedTokens token) then .error "Token not supported"
  else if amount = 0 then .error "Amount must be greater than 0"
  else
    match updateRewards caller token now apy w.staking with
    | .error e => .error e
    | .ok s1 =>
      match transferTok w.bal token caller cfg.stakingAddr amount with
      | .error e => .error e
      | .ok b1 =>
        match (if s1.yieldStrategy ≠ 0 then
                 transferTok b1 token cfg.stakingAddr s1.yieldStrategy amount
               else .ok b1) with
        | .error e => .error e
        | .ok b2 =>
          let si := s1.stakes caller token
          .ok { w with
            staking := { s1 with
              stakes := upd2 s1.stakes caller token
                { si with amount := si.amount + amount, lastUpdateTime := now } }
            bal := b2 }

/-- `ZeroStaking.unstake`. -/
def unstake (cfg : Cfg) (caller token amount now apy : Nat) (w : World) :
    Except String World :=
  let si := w.staking.stakes caller token
  if amount = 0 then .error "Amount must be greater than 0"
  else if si.amount < amount then .error "Insufficient staked amount"
  else if si.amount < si.lockedAmount then .error "arithmetic underflow"
  else if si.amount - si.lockedAmount < amount then .error "Amount exceeds unlocked balance"
  else
    match updateRewards caller token now apy w.staking with
    | .error e => .error e
    | .ok s1 =>
      let si1 := s1.stakes caller token
      let s2 := { s1 with
        stakes := upd2 s1.stakes caller token
          { si1 with amount := si1.amount - amount, lastUpdateTime := now } }
      match (if s2.yieldStrategy ≠ 0 then
               transferTok w.bal token s2.yieldStrategy cfg.stakingAddr amount
             else .ok w.bal) with
      | .error e => .error e
      | .ok b1 =>
        match transferTok b1 token cfg.stakingAddr caller amount with
        | .error e => .error e
        | .ok b2 => .ok { w with staking := s2, bal := b2 }

/-- `ZeroStaking.lockCollateral` (privileged to the registered debt ledger). -/
def lockCollateral (cfg : Cfg) (caller user token amount : Nat) (w : World) :
    Except String World :=
  if caller ≠ w.staking.zeroDebtContract then
    .error "Only ZeroDebt contract can lock collateral"
  else
    let si := w.staking.stakes user token
    if si.amount < si.lockedAmount then .error "arithmetic underflow"
    else if si.amount - si.lockedAmount < amount then .error "Insufficient unlocked balance"
    else .ok { w with staking := { w.staking with
      stakes := upd2 w.staking.stakes user token
        { si with lockedAmount := si.lockedAmount + amount } } }

/-- `ZeroStaking.unlockCollateral` (privileged to the registered debt ledger). -/
def unlockCollateral (cfg : Cfg) (caller user token amount : Nat) (w : World) :
    Except String World :=
  if caller ≠ w.staking.zeroDebtContract then
    .error "Only ZeroDebt contract can unlock collateral"
  else
    let si := w.staking.stakes user token
    if si.lockedAmount < amount then .error "Insufficient locked balance"
    else .ok { w with staking := { w.staking with
      stakes := upd2 w.staking.stakes user token
        { si with lockedAmount := si.lockedAmount - amount } } }

/-- `ZeroStaking.liquidateCollateral` (privileged to the registered debt
ledger): decreases both `amount` and `lockedAmount`, withdraws from the
strategy if one is configured, and transfers the liquidated amount to
`recipient`. -/
def liquidateCollateral (cfg : Cfg) (caller user token amount recipient : Nat)
    (w : World) : Except String World :=
  if caller ≠ w.staking.zeroDebtContract then
    .error "Only ZeroDebt contract can liquidate collateral"
  else
    let si := w.staking.stakes user token
    if si.lockedAmount < amount then .error "Insufficient locked balance"
    else if si.amount < amount then .error "arithmetic underflow"
    else
      let s1 := { w.staking with
        stakes := upd2 w.staking.stakes user token
          { si with amount := si.amount - amount, lockedAmount := si.lockedAmount - amount } }
      match (if s1.yieldStrategy ≠ 0 then
               transferTok w.bal token s1.yieldStrategy cfg.stakingAddr amount
             else .ok w.bal) with
      | .error e => .error e
      | .ok b1 =>
        match transferTok b1 token cfg.stakingAddr recipient amount with
        | .error e => .error e
        | .ok b2 => .ok { w with staking := s1, bal := b2 }

/-- `ZeroStaking.getAvailableCredit` (view): `(staked − locked) × 10000 /
collateralRatio`, reverting on the checked subtraction or a zero ratio. -/
def getAvailableCredit (s : StakingState) (user token : Nat) : Except String Nat :=
  let si := s.stakes user token
  if si.amount < si.lockedAmount then .error "arithmetic underflow"
  else if s.collateralRatio = 0 then .error "division by zero"
  else .ok ((si.amount - si.lockedAmount) * 10000 / s.collateralRatio)

/-- `ZeroStaking.setZeroDebtContract` (owner only). -/
def setZeroDebtContract (caller a : Nat) (w : World) : Except String World :=
  if caller ≠ w.staking.owner then .error "Ownable: caller is not the owner"
  else .ok { w with staking := { w.staking with zeroDebtContract := a } }

/-- `ZeroStaking.setYieldStrategy` (owner only). -/
def setYieldStrategy (caller a : Nat) (w : World) : Except String World :=
  if caller ≠ w.staking.owner then .error "Ownable: caller is not the owner"
  else .ok { w with staking := { w.staking with yieldStrategy := a } }

/-- `ZeroStaking.addSupportedToken` (owner only). -/
def addSupportedToken (caller token : Nat) (w : World) : Except String World :=
  if caller ≠ w.staking.owner then .error "Ownable: caller is not the owner"
  else .ok { w with staking := { w.staking with
    supportedTokens := upd1 w.staking.supportedTokens token true } }

/-- `ZeroStaking.removeSupportedToken` (owner only). -/
def removeSupportedToken (caller token : Nat) (w : World) : Except String World :=
  if caller ≠ w.staking.owner then .error "Ownable: caller is not the owner"
  else .ok { w with staking := { w.staking with
    supportedTokens := upd1 w.staking.supportedTokens token false } }

/-- `ZeroStaking.setCollateralRatio` (owner only, requires at least 100%). -/
def setCollateralRatio (caller ratio : Nat) (w : World) : Except String World :=
  if caller ≠ w.staking.owner then .error "Ownable: caller is not the owner"
  else if ratio < 10000 then .error "Ratio must be at least 100%"
  else .ok { w with staking := { w.staking with collateralRatio := ratio } }

/-- `ZeroDebt.createDebt`: validates the period, checks available credit,
locks `paymentAmount × collateralRatio / 10000` of collateral, pays the
merchant `paymentAmount − fee` and retains the fee, then records the debt
with deadline `now + repaymentPeriod` and state Open.  Returns the new
world together with the fresh debt id. -/
def createDebt (cfg : Cfg) (caller merchant paymentToken paymentAmount
    collateralToken repaymentPeriod now : Nat) (w : World) :
    Except String (World × Nat) :=
  if merchant = 0 then .error "Invalid merchant address"
  else if paymentAmount = 0 then .error "Payment amount must be greater than 0"
  else if repaymentPeriod < w.debt.minimumRepaymentPeriod then .error "Repayment period too short"
  else if repaymentPeriod > w.debt.maximumRepaymentPeriod then .error "Repayment period too long"
  else
    match getAvailableCredit w.staking caller collateralToken with
    | .error e => .error e
    | .ok availableCredit =>
      if availableCredit < paymentAmount then .error "Insufficient credit available"
      else
        let collateralRequired := paymentAmount * w.staking.collateralRatio / 10000
        match lockCollateral cfg cfg.debtAddr caller collateralToken collateralRequired w with
        | .error e => .error e
        | .ok w1 =>
          let fee := paymentAmount * w1.debt.platformFee / 10000
          if paymentAmount < fee then .error "arithmetic underflow"
          else
            match transferTok w1.bal paymentToken caller merchant (paymentAmount - fee) with
            | .error e => .error e
            | .ok b1 =>
              match (if fee > 0 then transferTok b1 paymentToken caller cfg.debtAddr fee
                     else .ok b1) with
              | .error e => .error e
              | .ok b2 =>
                let debtId := w1.debt.nextDebtId
                let d : DebtInfo :=
                  { borrower := caller, merchant := merchant, token := paymentToken
                    amount := paymentAmount, collateralToken := collateralToken
                    collateralAmount := collateralRequired
                    repaymentDeadline := now + repaymentPeriod
                    penalty := w1.debt.defaultPenalty
                    repaid := false, liquidated := false }
                .ok ({ w1 with
                  bal := b2
                  debt := { w1.debt with
                    debts := upd1 w1.debt.debts debtId d
                    nextDebtId := debtId + 1
                    userDebts := upd1 w1.debt.userDebts caller
                      (w1.debt.userDebts caller ++ [debtId])
                    merchantDebts := upd1 w1.debt.merchantDebts merchant
                      (w1.debt.merchantDebts merchant ++ [debtId]) } }, debtId)

/-- `ZeroDebt.createDebtFor`: the integrator-only variant; identical except
that the merchant is paid out of the debt ledger's own balance (funds the
integrator has already placed there) and no separate fee transfer occurs. -/
def createDebtFor (cfg : Cfg) (caller borrower merchant paymentToken paymentAmount
    collateralToken repaymentPeriod now : Nat) (w : World) :
    Except String (World × Nat) :=
  if ¬ (w.debt.authorizedIntegrators caller) then .error "Caller not authorized"
  else if borrower = 0 then .error "Invalid borrower address"
  else if merchant = 0 then .error "Invalid merchant address"
  else if paymentAmount = 0 then .error "Payment amount must be greater than 0"
  else if repaymentPeriod < w.debt.minimumRepaymentPeriod then .error "Repayment period too short"
  else if repaymentPeriod > w.debt.maximumRepaymentPeriod then .error "Repayment period too long"
  else
    match getAvailableCredit w.staking borrower collateralToken with
    | .error e => .error e
    | .ok availableCredit =>
      if availableCredit < paymentAmount then .error "Insufficient credit available"
      else
        let collateralRequired := paymentAmount * w.staking.collateralRatio / 10000
        match lockCollateral cfg cfg.debtAddr borrower collateralToken collateralRequired w with
        | .error e => .error e
        | .ok w1 =>
          let fee := paymentAmount * w1.debt.platformFee / 10000
          if paymentAmount < fee then .error "arithmetic underflow"
          else
            match transferTok w1.bal paymentToken cfg.debtAddr merchant (paymentAmount - fee) with
            | .error e => .error e
            | .ok b1 =>
              let debtId := w1.debt.nextDebtId
              let d : DebtInfo :=
                { borrower := borrower, merchant := merchant, token := paymentToken
                  amount := paymentAmount, collateralToken := collateralToken
                  collateralAmount := collateralRequired
                  repaymentDeadline := now + repaymentPeriod
                  penalty := w1.debt.defaultPenalty
                  repaid := false, liquidated := false }
              .ok ({ w1 with
                bal := b1
                debt := { w1.debt with
                  debts := upd1 w1.debt.debts debtId d
                  nextDebtId := debtId + 1
                  userDebts := upd1 w1.debt.userDebts borrower
                    (w1.debt.userDebts borrower ++ [debtId])
                  merchantDebts := upd1 w1.debt.merchantDebts merchant
                    (w1.debt.merchantDebts merchant ++ [debtId]) } }, debtId)

/-- `ZeroDebt.repayDebt`: borrower-only; pulls `amount` (plus
`amount × penalty / 10000` when past the deadline) into the debt ledger,
unlocks the originally recorded collateral and marks the debt repaid. -/
def repayDebt (cfg : Cfg) (caller debtId now : Nat) (w : World) :
    Except String World :=
  let d := w.debt.debts debtId
  if d.borrower ≠ caller then .error "Not the borrower"
  else if d.repaid then .error "Debt already repaid"
  else if d.liquidated then .error "Debt already liquidated"
  else
    let repaymentAmount :=
      if d.repaymentDeadline < now then d.amount + d.amount * d.penalty / 10000
      else d.amount
    match transferTok w.bal d.token caller cfg.debtAddr repaymentAmount with
    | .error e => .error e
    | .ok b1 =>
      match unlockCollateral cfg cfg.debtAddr d.borrower d.collateralToken
          d.collateralAmount { w with bal := b1 } with
      | .error e => .error e
      | .ok w1 =>
        .ok { w1 with debt := { w1.debt with
          debts := upd1 w1.debt.debts debtId { d with repaid := true } } }

/-- `ZeroDebt.liquidateDebt`: callable by anyone once past the deadline;
liquidates the collateral to the debt ledger's own address and pays the
merchant half of the penalty (the protocol share and the collateral stay in
the debt ledger's balance). -/
def liquidateDebt (cfg : Cfg) (caller debtId now : Nat) (w : World) :
    Except String World :=
  let d := w.debt.debts debtId
  if d.repaid then .error "Debt already repaid"
  else if d.liquidated then .error "Debt already liquidated"
  else if ¬ (d.repaymentDeadline < now) then .error "Repayment deadline not passed"
  else
    let penaltyAmount := d.amount * d.penalty / 10000
    let merchantShare := penaltyAmount / 2
    match liquidateCollateral cfg cfg.debtAddr d.borrower d.collateralToken
        d.collateralAmount cfg.debtAddr w with
    | .error e => .error e
    | .ok w1 =>
      let w2 := { w1 with debt := { w1.debt with
        debts := upd1 w1.debt.debts debtId { d with liquidated := true } } }
      match (if merchantShare > 0 then
               transferTok w2.bal d.token cfg.debtAddr d.merchant merchantShare
             else .ok w2.bal) with
      | .error e => .error e
      | .ok b1 => .ok { w2 with bal := b1 }

/-- `ZeroDebt.authorizeIntegrator` (owner only). -/
def authorizeIntegrator (caller integrator : Nat) (w : World) : Except String World :=
  if caller ≠ w.debt.owner then .error "Ownable: caller is not the owner"
  else if integrator = 0 then .error "Invalid integrator address"
  else .ok { w with debt := { w.debt with
    authorizedIntegrators := upd1 w.debt.authorizedIntegrators integrator true } }

/-- `ZeroDebt.deauthorizeIntegrator` (owner only). -/
def deauthorizeIntegrator (caller integrator : Nat) (w : World) : Except String World :=
  if caller ≠ w.debt.owner then .error "Ownable: caller is not the owner"
  else .ok { w with debt := { w.debt with
    authorizedIntegrators := upd1 w.debt.authorizedIntegrators integrator false } }

/-- `ZeroDebt.setPlatformFee` (owner only, at most 10%). -/
def setPlatformFee (caller fee : Nat) (w : World) : Except String World :=
  if caller ≠ w.debt.owner then .error "Ownable: caller is not the owner"
  else if fee > 1000 then .error "Fee too high"
  else .ok { w with debt := { w.debt with platformFee := fee } }

/-- `ZeroDebt.setDefaultPenalty` (owner only, at most 30%). -/
def setDefaultPenalty (caller penalty : Nat) (w : World) : Except String World :=
  if caller ≠ w.debt.owner then .error "Ownable: caller is not the owner"
  else if penalty > 3000 then .error "Penalty too high"
  else .ok { w with debt := { w.debt with defaultPenalty := penalty } }

/-- `ZeroDebt.setMinimumRepaymentPeriod` (owner only). -/
def setMinimumRepaymentPeriod (caller p : Nat) (w : World) : Except String World :=
  if caller ≠ w.debt.owner then .error "Ownable: caller is not the owner"
  else if p > w.debt.maximumRepaymentPeriod then .error "Min period exceeds max period"
  else .ok { w with debt := { w.debt with minimumRepaymentPeriod := p } }

/-- `ZeroDebt.setMaximumRepaymentPeriod` (owner only). -/
def setMaximumRepaymentPeriod (caller p : Nat) (w : World) : Except String World :=
  if caller ≠ w.debt.owner then .error "Ownable: caller is not the owner"
  else if p < w.debt.minimumRepaymentPeriod then .error "Max period below min period"
  else .ok { w with debt := { w.debt with maximumRepaymentPeriod := p } }

/-- `ZeroDebt.withdrawFees` (owner only): sweeps the debt ledger's whole
balance of `token` to `recipient`. -/
def withdrawFees (cfg : Cfg) (caller token recipient : Nat) (w : World) :
    Except String World :=
  if caller ≠ w.debt.owner then .error "Ownable: caller is not the owner"
  else if recipient = 0 then .error "Invalid recipient"
  else if w.bal token cfg.debtAddr > 0 then
    match transferTok w.bal token cfg.debtAddr recipient (w.bal token cfg.debtAddr) with
    | .error e => .error e
    | .ok b1 => .ok { w with bal := b1 }
  else .ok w

/-- `ZeroDebt.getUserActiveDebts` (view): the user's debt ids filtered to
those neither repaid nor liquidated, in recorded (creation) order. -/
def getUserActiveDebts (user : Nat) (w : World) : List Nat :=
  (w.debt.userDebts user).filter
    (fun id => ¬ (w.debt.debts id).repaid ∧ ¬ (w.debt.debts id).liquidated)

/-- One slot of the `yieldSnapshots` ring buffer of
`strategies/MorphoStrategy.sol`. -/
structure YieldSnapshot where
  timestamp : Nat
  sharePrice : Nat

deriving DecidableEq, Repr

/-- The APY-related storage of `strategies/MorphoStrategy.sol`. -/
structure StrategyApyState where
  currentAPY : Nat
  lastAPYUpdate : Nat
  yieldSnapshots : Fin 10 → YieldSnapshot
  currentSnapshotIndex : Fin 10

/-- Storage of `strategies/MorphoStrategy.sol` relevant to the claims:
the APY substate plus the deposit/share bookkeeping. -/
structure MorphoState where
  usdcToken : Nat
  apy : StrategyApyState
  totalDeposited : Nat → Nat
  userShares : Nat → Nat

/-- `MorphoStrategy.updateAPY`.  `sharePrice` is
`morphoVault.convertToAssets(1e18)` at call time (an external input).
Returns early, changing nothing, when less than one day has passed since
`lastAPYUpdate`; otherwise records a snapshot at the next ring index, scans
for the oldest snapshot within a 30-day window, recomputes `currentAPY`
when a distinct in-window older snapshot exists, and stamps
`lastAPYUpdate := now`.  The checked arithmetic of
`currentSharePrice * 1e18 / oldSharePrice - 1e18` reverts the whole call
(no state change) when the stored share price is zero or when the share
price has declined over the window.  `apySnaps` is the ring after the
snapshot insertion and `apyScan` the oldest-in-window loop. -/
def apySnaps (now sharePrice : Nat) (s : StrategyApyState) (idx : Fin 10) :
    Fin 10 → YieldSnapshot :=
  fun i => if i = idx then ⟨now, sharePrice⟩ else s.yieldSnapshots i

/-- The source's loop over the ring looking for the oldest snapshot that is
initialized and at most 30 days old, starting from the freshly written
index and the current time. -/
def apyScan (now : Nat) (snaps : Fin 10 → YieldSnapshot) (idx : Fin 10) :
    Fin 10 × Nat :=
  (List.finRange 10).foldl
    (fun (acc : Fin 10 × Nat) i =>
      if (snaps i).timestamp = 0 then acc
      else if 2592000 < now - (snaps i).timestamp then acc
      else if (snaps i).timestamp < acc.2 then (i, (snaps i).timestamp) else acc)
    (idx, now)

def updateAPY (now sharePrice : Nat) (s : StrategyApyState) :
    Except String StrategyApyState :=
  if now < s.lastAPYUpdate + 86400 then .ok s
  else
    let idx : Fin 10 := ⟨(s.currentSnapshotIndex.val + 1) % 10, Nat.mod_lt _ (by omega)⟩
    let snaps := apySnaps now sharePrice s idx
    let scan := apyScan now snaps idx
    if scan.2 < now ∧ scan.1 ≠ idx then
      if (snaps scan.1).sharePrice = 0 then .error "division by zero"
      else if sharePrice * 1000000000000000000 / (snaps scan.1).sharePrice
          < 1000000000000000000 then .error "arithmetic underflow"
      else
        .ok { currentAPY := (sharePrice * 1000000000000000000 /
                (snaps scan.1).sharePrice - 1000000000000000000) * 31536000 * 10000
                / ((now - scan.2) * 1000000000000000000)
              lastAPYUpdate := now
              yieldSnapshots := snaps, currentSnapshotIndex := idx }
    else
      .ok { currentAPY := s.currentAPY, lastAPYUpdate := now
            yieldSnapshots := snaps, currentSnapshotIndex := idx }

/-- `MorphoStrategy.deposit`: USDC only; calls `updateAPY` first, then books
the deposit.  `sharesMinted` is the vault's minted share count (external). -/
def strategyDeposit (caller token amount now sharePrice sharesMinted : Nat)
    (s : MorphoState) : Except String MorphoState :=
  if token ≠ s.usdcToken then .error "Only USDC supported"
  else if amount = 0 then .error "Amount must be greater than 0"
  else
    match updateAPY now sharePrice s.apy with
    | .error e => .error e
    | .ok apy1 =>
      .ok { s with
        apy := apy1
        totalDeposited := upd1 s.totalDeposited token (s.totalDeposited token + amount)
        userShares := upd1 s.userShares caller (s.userShares caller + sharesMinted) }

/-- `MorphoStrategy.withdraw`: USDC only; calls `updateAPY` first.
`userAssets` and `sharesToRedeem` are the vault-conversion results the
source computes from external vault calls (external inputs here). -/
def strategyWithdraw (caller token amount now sharePrice userAssets sharesToRedeem : Nat)
    (s : MorphoState) : Except String MorphoState :=
  if token ≠ s.usdcToken then .error "Only USDC supported"
  else if amount = 0 then .error "Amount must be greater than 0"
  else
    match updateAPY now sharePrice s.apy with
    | .error e => .error e
    | .ok apy1 =>
      if userAssets < amount then .error "Insufficient balance"
      else if s.userShares caller < sharesToRedeem then .error "Insufficient shares"
      else if s.totalDeposited token < amount then .error "arithmetic underflow"
      else .ok { s with
        apy := apy1
        totalDeposited := upd1 s.totalDeposited token (s.totalDeposited token - amount)
        userShares := upd1 s.userShares caller (s.userShares caller - sharesToRedeem) }

/-- Freshly deployed `ZeroStaking` storage: ratio 150%, no debt ledger, no
strategy, nothing staked. -/
def initStaking (owner : Nat) : StakingState :=
  { owner := owner
    stakes := fun _ _ => ⟨0, 0, 0⟩
    supportedTokens := fun _ => false
    collateralRatio := 15000
    zeroDebtContract := 0
    yieldStrategy := 0
    totalRewards := fun _ => 0
    userRewards := fun _ _ => 0
    lastRewardUpdate := fun _ _ => 0 }

/-- Freshly deployed `ZeroDebt` storage: 1% fee, 5% penalty, 1–30 day
periods, first debt id 1. -/
def initDebt (owner : Nat) : DebtState :=
  { owner := owner
    platformFee := 100
    defaultPenalty := 500
    minimumRepaymentPeriod := 86400
    maximumRepaymentPeriod := 2592000
    debts := fun _ => zeroDebtInfo
    nextDebtId := 1
    userDebts := fun _ => []
    merchantDebts := fun _ => []
    authorizedIntegrators := fun _ => false }

/-- A freshly deployed world: both contracts at their constructor state and
an arbitrary initial token distribution `b` among external holders. -/
def initWorld (stakingOwner debtOwner : Nat) (b : Bal) : World :=
  { staking := initStaking stakingOwner, debt := initDebt debtOwner, bal := b }

/-- One externally triggered transaction of the combined system: any entry
point of either contract, called by anyone with any arguments at any time,
or a token transfer between parties other than the two contracts. -/
inductive Step (cfg : Cfg) : World → World → Prop where
  | stake (caller token amount now apy : Nat) {w w' : World}
      (h : stake cfg caller token amount now apy w = .ok w') : Step cfg w w'
  | unstake (caller token amount now apy : Nat) {w w' : World}
      (h : unstake cfg caller token amount now apy w = .ok w') : Step cfg w w'
  | lockCollateral (caller user token amount : Nat) {w w' : World}
      (h : lockCollateral cfg caller user token amount w = .ok w') : Step cfg w w'
  | unlockCollateral (caller user token amount : Nat) {w w' : World}
      (h : unlockCollateral cfg caller user token amount w = .ok w') : Step cfg w w'
  | liquidateCollateral (caller user token amount recipient : Nat) {w w' : World}
      (h : liquidateCollateral cfg caller user token amount recipient w = .ok w') :
      Step cfg w w'
  | setZeroDebtContract (caller a : Nat) {w w' : World}
      (h : setZeroDebtContract caller a w = .ok w') : Step cfg w w'
  | setYieldStrategy (caller a : Nat) {w w' : World}
      (h : setYieldStrategy caller a w = .ok w') : Step cfg w w'
  | addSupportedToken (caller token : Nat) {w w' : World}
      (h : addSupportedToken caller token w = .ok w') : Step cfg w w'
  | removeSupportedToken (caller token : Nat) {w w' : World}
      (h : removeSupportedToken caller token w = .ok w') : Step cfg w w'
  | setCollateralRatio (caller ratio : Nat) {w w' : World}
      (h : setCollateralRatio caller ratio w = .ok w') : Step cfg w w'
  | createDebt (caller merchant paymentToken paymentAmount collateralToken
        repaymentPeriod now : Nat) {w : World} {r : World × Nat}
      (h : createDebt cfg caller merchant paymentToken paymentAmount
        collateralToken repaymentPeriod now w = .ok r) : Step cfg w r.1
  | createDebtFor (caller borrower merchant paymentToken paymentAmount
        collateralToken repaymentPeriod now : Nat) {w : World} {r : World × Nat}
      (h : createDebtFor cfg caller borrower merchant paymentToken paymentAmount
        collateralToken repaymentPeriod now w = .ok r) : Step cfg w r.1
  | repayDebt (caller debtId now : Nat) {w w' : World}
      (h : repayDebt cfg caller debtId now w = .ok w') : Step cfg w w'
  | liquidateDebt (caller debtId now : Nat) {w w' : World}
      (h : liquidateDebt cfg caller debtId now w = .ok w') : Step cfg w w'
  | authorizeIntegrator (caller integrator : Nat) {w w' : World}
      (h : authorizeIntegrator caller integrator w = .ok w') : Step cfg w w'
  | deauthorizeIntegrator (caller integrator : Nat) {w w' : World}
      (h : deauthorizeIntegrator caller integrator w = .ok w') : Step cfg w w'
  | setPlatformFee (caller fee : Nat) {w w' : World}
      (h : setPlatformFee caller fee w = .ok w') : Step cfg w w'
  | setDefaultPenalty (caller penalty : Nat) {w w' : World}
      (h : setDefaultPenalty caller penalty w = .ok w') : Step cfg w w'
  | setMinimumRepaymentPeriod (caller p : Nat) {w w' : World}
      (h : setMinimumRepaymentPeriod caller p w = .ok w') : Step cfg w w'
  | setMaximumRepaymentPeriod (caller p : Nat) {w w' : World}
      (h : setMaximumRepaymentPeriod caller p w = .ok w') : Step cfg w w'
  | withdrawFees (caller token recipient : Nat) {w w' : World}
      (h : withdrawFees cfg caller token recipient w = .ok w') : Step cfg w w'
  | extTransfer (token source dest amt : Nat) {w : World} {b' : Bal}
      (hs : source ≠ cfg.stakingAddr) (hd : source ≠ cfg.debtAddr)
      (h : transferTok w.bal token source dest amt = .ok b') :
      Step cfg w { w with bal := b' }

/-- A world is reachable when some sequence of transactions leads to it from
a freshly deployed world (any owners, any initial token distribution). -/
def Reachable (cfg : Cfg) (w : World) : Prop :=
  ∃ stakingOwner debtOwner b,
    Relation.ReflTransGen (Step cfg) (initWorld stakingOwner debtOwner b) w

/-- The per-(user, asset) collateral invariant of the spec:
`locked ≤ staked` everywhere. -/
def StakeInv (w : World) : Prop :=
  ∀ u t, (w.staking.stakes u t).lockedAmount ≤ (w.staking.stakes u t).amount

/-- Debt lifecycle status: 0 = Open, 1 = Repaid, 2 = Liquidated (the
source encodes the state as the `repaid`/`liquidated` flag pair, with
`repaid` checked first). -/
def dstatus (d : DebtInfo) : Nat :=
  if d.repaid then 1 else if d.liquidated then 2 else 0

/-- The status transitions the spec's state machine allows: unchanged, or
Open (0) → Repaid (1), or Open (0) → Liquidated (2). -/
def statusStep (a b : Nat) : Prop :=
  b = a ∨ (a = 0 ∧ (b = 1 ∨ b = 2))

/-- Ids at or past `nextDebtId` have never been created and hold the zero
record (an invariant of every reachable state: `repayDebt` and
`liquidateDebt` on such an id revert inside the ERC20 call on the zero
record's token address, so only `createDebt`/`createDebtFor` ever write a
fresh id, and they write exactly at `nextDebtId`). -/
def PhantomInv (w : World) : Prop :=
  ∀ id, w.debt.nextDebtId ≤ id → w.debt.debts id = zeroDebtInfo

/-- Everything a single transaction preserves that the invariant claims
need: the collateral invariant, the ≥100% collateral ratio, monotonicity of
`nextDebtId`, and — given the uncreated-ids invariant — its preservation
together with the debt state machine on every id: terminal records are
frozen and statuses move only along `statusStep`. -/
def Pres (w w' : World) : Prop :=
  (StakeInv w → StakeInv w') ∧
  (10000 ≤ w.staking.collateralRatio → 10000 ≤ w'.staking.collateralRatio) ∧
  w.debt.nextDebtId ≤ w'.debt.nextDebtId ∧
  (PhantomInv w → PhantomInv w' ∧
    ∀ id, (dstatus (w.debt.debts id) ≠ 0 → w'.debt.debts id = w.debt.debts id) ∧
      statusStep (dstatus (w.debt.debts id)) (dstatus (w'.debt.debts id)))

/-- Concrete deployment: collateral ledger at address 1, debt ledger at 2. -/
def cfg0 : Cfg := ⟨1, 2⟩

/-- An empty initial token distribution. -/
def bal0 : Bal := fun _ _ => 0

/-- A small post-deployment state: owner 4, debt ledger registered, user 5
holds a stake of 1000 of token 7 and 1000 units of payment token 8. -/
def w0 : World :=
  { staking := { initStaking 4 with
      zeroDebtContract := 2
      stakes := upd2 (fun _ _ => ⟨0, 0, 0⟩) 5 7 ⟨1000, 0, 0⟩ }
    debt := initDebt 4
    bal := upd2 (upd2 (fun _ _ => 0) 8 5 1000) 7 1 1000 }

/-- A freshly deployed world with owners 4 and an empty token distribution. -/
def wInit : World := initWorld 4 4 bal0

/-- `wInit` after the owner adds support for token 11. -/
def wInitAdd : World :=
  match addSupportedToken 4 11 wInit with
  | .ok w => w
  | .error _ => wInit

/-- A concrete strategy state whose last APY update was at time 50. -/
def mS0 : MorphoState :=
  { usdcToken := 3
    apy := { currentAPY := 1300, lastAPYUpdate := 50
             yieldSnapshots := fun _ => ⟨50, 1000000000000000000⟩
             currentSnapshotIndex := 0 }
    totalDeposited := fun _ => 0
    userShares := fun _ => 0 }

/-- The strategy state `updateAPY` produces from `mS0` on a guard-passing
call at time 86450 with an unchanged share price. -/
def mS1 : StrategyApyState :=
  match updateAPY 86450 1000000000000000000 mS0.apy with
  | .ok s => s
  | .error _ => mS0.apy

/-- World for the reward-clock test: token 7 supported, strategy at
address 3 configured, user 5 holds 315360000 units of token 7. -/
def wC6 : World :=
  { staking := { initStaking 4 with
      supportedTokens := upd1 (fun _ => false) 7 true
      yieldStrategy := 3 }
    debt := initDebt 4
    bal := upd2 (fun _ _ => 0) 7 5 315360000 }

/-- State with an open debt (id 1): borrower 5, merchant 6, payment token 8,
amount 100, collateral 150 of token 7 locked, deadline 500, penalty 500 bps. -/
def wR : World :=
  { staking := { initStaking 4 with
      zeroDebtContract := 2
      stakes := upd2 (fun _ _ => ⟨0, 0, 0⟩) 5 7 ⟨1000, 150, 0⟩ }
    debt := { initDebt 4 with
      debts := upd1 (fun _ => zeroDebtInfo) 1 ⟨5, 6, 8, 100, 7, 150, 500, 500, false, false⟩
      nextDebtId := 2 }
    bal := upd2 (fun _ _ => 0) 8 5 1000 }

/-- `wR` after the borrower repays debt 1 before the deadline. -/
def wRrep : World :=
  match repayDebt cfg0 5 1 100 wR with
  | .ok w => w
  | .error _ => wR

/-- State with an open overdue debt (id 1, deadline 500): borrower 5,
merchant 6, payment token 8, amount 100, collateral 150 of token 7 locked;
the collateral ledger holds the token-7 pool and the debt ledger holds some
token 8 to pay the penalty share from. -/
def wL : World :=
  { staking := { initStaking 4 with
      zeroDebtContract := 2
      stakes := upd2 (fun _ _ => ⟨0, 0, 0⟩) 5 7 ⟨1000, 150, 0⟩ }
    debt := { initDebt 4 with
      debts := upd1 (fun _ => zeroDebtInfo) 1 ⟨5, 6, 8, 100, 7, 150, 500, 500, false, false⟩
      nextDebtId := 2 }
    bal := upd2 (upd2 (fun _ _ => 0) 7 1 1000) 8 2 10 }

/-- `wL` after anyone (address 9) liquidates debt 1 at time 600. -/
def wL1 : World :=
  match liquidateDebt cfg0 9 1 600 wL with
  | .ok w => w
  | .error _ => wL

/-- `w0` after borrower 5 creates debt 1 (100 of token 8 to merchant 6,
150 of token 7 locked). -/
def wS1 : World :=
  match createDebt cfg0 5 6 8 100 7 86400 100 w0 with
  | .ok r => r.1
  | .error _ => w0

/-- `wS1` after borrower 5 repays debt 1 before the deadline. -/
def wS2 : World :=
  match repayDebt cfg0 5 1 200 wS1 with
  | .ok w => w
  | .error _ => wS1

/-! ## Lemmas, invariants and claim theorems -/

@[simp] theorem upd1_same {α : Type} (f : Nat → α) (x : Nat) (v : α) :
    upd1 f x v x = v := by simp [upd1]

@[simp] theorem upd1_other {α : Type} (f : Nat → α) (x a : Nat) (v : α) (h : a ≠ x) :
    upd1 f x v a = f a := by simp [upd1, h]

@[simp] theorem upd2_same {α : Type} (f : Nat → Nat → α) (x y : Nat) (v : α) :
    upd2 f x y v x y = v := by simp [upd2]

theorem upd2_other {α : Type} (f : Nat → Nat → α) (x y a b : Nat) (v : α)
    (h : ¬(a = x ∧ b = y)) : upd2 f x y v a b = f a b := by simp [upd2, h]

theorem debtClause_of_eq {w w' : World} (hd : w'.debt = w.debt) :
    PhantomInv w → PhantomInv w' ∧
      ∀ id, (dstatus (w.debt.debts id) ≠ 0 → w'.debt.debts id = w.debt.debts id) ∧
        statusStep (dstatus (w.debt.debts id)) (dstatus (w'.debt.debts id)) := by
  intro hp
  constructor
  · intro id hle
    rw [hd] at hle ⊢
    exact hp id hle
  · intro id
    rw [hd]
    exact ⟨fun _ => rfl, Or.inl rfl⟩

theorem pres_refl (w : World) : Pres w w :=
  ⟨id, id, le_refl _, debtClause_of_eq rfl⟩

/-- A transaction that keeps the staking storage's stakes map and ratio and
the whole debt storage satisfies `Pres`. -/
theorem pres_of_frames {w w' : World}
    (hs : w'.staking.stakes = w.staking.stakes)
    (hr : w'.staking.collateralRatio = w.staking.collateralRatio)
    (hd : w'.debt = w.debt) : Pres w w' := by
  refine ⟨fun hi u t => ?_, fun h => ?_, by rw [hd], debtClause_of_eq hd⟩
  · rw [hs]; exact hi u t
  · rw [hr]; exact h

theorem transferTok_ok {b : Bal} {token source dest amt : Nat} {b' : Bal}
    (h : transferTok b token source dest amt = .ok b') :
    token ≠ 0 ∧
    amt ≤ b token source ∧
    b' = upd2 (upd2 b token source (b token source - amt)) token dest
      ((upd2 b token source (b token source - amt)) token dest + amt) := by
  unfold transferTok at h
  split_ifs at h with h0 h1
  · exact ⟨h0, h1, (Except.ok.injEq _ _).mp h |>.symm⟩

theorem transferTok_dest {b : Bal} {token source dest amt : Nat} {b' : Bal}
    (h : transferTok b token source dest amt = .ok b') (hne : source ≠ dest) :
    b' token dest = b token dest + amt := by
  obtain ⟨h0, h1, h2⟩ := transferTok_ok h
  subst h2
  rw [upd2_same, upd2_other _ _ _ _ _ _ (fun hc => hne hc.2.symm)]

theorem transferTok_src {b : Bal} {token source dest amt : Nat} {b' : Bal}
    (h : transferTok b token source dest amt = .ok b') (hne : source ≠ dest) :
    b token source = b' token source + amt := by
  obtain ⟨h0, h1, h2⟩ := transferTok_ok h
  subst h2
  rw [upd2_other _ _ _ _ _ _ (fun hc => hne hc.2), upd2_same]
  omega

theorem transferTok_other {b : Bal} {token source dest amt x : Nat} {b' : Bal}
    (h : transferTok b token source dest amt = .ok b')
    (h1 : x ≠ source) (h2 : x ≠ dest) : b' token x = b token x := by
  obtain ⟨_, _, he⟩ := transferTok_ok h
  subst he
  rw [upd2_other _ _ _ _ _ _ (fun hc => h2 hc.2), upd2_other _ _ _ _ _ _ (fun hc => h1 hc.2)]

theorem transferTok_otherTok {b : Bal} {token source dest amt t2 x : Nat} {b' : Bal}
    (h : transferTok b token source dest amt = .ok b') (ht : t2 ≠ token) :
    b' t2 x = b t2 x := by
  obtain ⟨_, _, he⟩ := transferTok_ok h
  subst he
  rw [upd2_other _ _ _ _ _ _ (fun hc => ht hc.1), upd2_other _ _ _ _ _ _ (fun hc => ht hc.1)]

theorem updateRewards_ok {user token now apy : Nat} {s s1 : StakingState}
    (h : updateRewards user token now apy s = .ok s1) :
    s1.owner = s.owner ∧ s1.stakes = s.stakes ∧
    s1.supportedTokens = s.supportedTokens ∧
    s1.collateralRatio = s.collateralRatio ∧
    s1.zeroDebtContract = s.zeroDebtContract ∧
    s1.yieldStrategy = s.yieldStrategy := by
  unfold updateRewards at h
  dsimp only at h
  split_ifs at h <;>
    (rw [Except.ok.injEq] at h; subst h; exact ⟨rfl, rfl, rfl, rfl, rfl, rfl⟩)

theorem lockCollateral_ok {cfg : Cfg} {caller user token amount : Nat} {w w' : World}
    (h : lockCollateral cfg caller user token amount w = .ok w') :
    caller = w.staking.zeroDebtContract ∧
    (w.staking.stakes user token).lockedAmount ≤ (w.staking.stakes user token).amount ∧
    amount ≤ (w.staking.stakes user token).amount - (w.staking.stakes user token).lockedAmount ∧
    w' = { w with staking := { w.staking with
      stakes := upd2 w.staking.stakes user token
        { w.staking.stakes user token with
          lockedAmount := (w.staking.stakes user token).lockedAmount + amount } } } := by
  unfold lockCollateral at h
  dsimp only at h
  split_ifs at h with h1 h2 h3
  rw [Except.ok.injEq] at h
  exact ⟨not_not.mp h1, by omega, by omega, h.symm⟩

theorem unlockCollateral_ok {cfg : Cfg} {caller user token amount : Nat} {w w' : World}
    (h : unlockCollateral cfg caller user token amount w = .ok w') :
    caller = w.staking.zeroDebtContract ∧
    amount ≤ (w.staking.stakes user token).lockedAmount ∧
    w' = { w with staking := { w.staking with
      stakes := upd2 w.staking.stakes user token
        { w.staking.stakes user token with
          lockedAmount := (w.staking.stakes user token).lockedAmount - amount } } } := by
  unfold unlockCollateral at h
  dsimp only at h
  split_ifs at h with h1 h2
  rw [Except.ok.injEq] at h
  exact ⟨not_not.mp h1, by omega, h.symm⟩

theorem liquidateCollateral_ok {cfg : Cfg} {caller user token amount recipient : Nat}
    {w w' : World}
    (h : liquidateCollateral cfg caller user token amount recipient w = .ok w') :
    caller = w.staking.zeroDebtContract ∧
    amount ≤ (w.staking.stakes user token).lockedAmount ∧
    amount ≤ (w.staking.stakes user token).amount ∧
    ∃ b1 b2,
      (if w.staking.yieldStrategy ≠ 0 then
         transferTok w.bal token w.staking.yieldStrategy cfg.stakingAddr amount
       else .ok w.bal) = .ok b1 ∧
      transferTok b1 token cfg.stakingAddr recipient amount = .ok b2 ∧
      w' = { w with
        staking := { w.staking with
          stakes := upd2 w.staking.stakes user token
            { w.staking.stakes user token with
              amount := (w.staking.stakes user token).amount - amount
              lockedAmount := (w.staking.stakes user token).lockedAmount - amount } }
        bal := b2 } := by
  unfold liquidateCollateral at h
  dsimp only at h
  split_ifs at h with h1 h2 h3 h4
  · cases htr : transferTok w.bal token w.staking.yieldStrategy cfg.stakingAddr amount with
    | error e => rw [htr] at h; exact Except.noConfusion h
    | ok b1 =>
      rw [htr] at h; dsimp only at h
      cases hb2 : transferTok b1 token cfg.stakingAddr recipient amount with
      | error e => rw [hb2] at h; exact Except.noConfusion h
      | ok b2 =>
        rw [hb2] at h; dsimp only at h
        rw [Except.ok.injEq] at h
        exact ⟨not_not.mp h1, by omega, by omega, b1, b2,
          by rw [if_pos h4], hb2, h.symm⟩
  · dsimp only at h
    cases hb2 : transferTok w.bal token cfg.stakingAddr recipient amount with
    | error e => rw [hb2] at h; exact Except.noConfusion h
    | ok b2 =>
      rw [hb2] at h; dsimp only at h
      rw [Except.ok.injEq] at h
      exact ⟨not_not.mp h1, by omega, by omega, w.bal, b2,
        by rw [if_neg h4], hb2, h.symm⟩

theorem pres_of_debt_bookkeeping {w w' : World}
    (hs : w'.staking = w.staking)
    (hdd : w'.debt.debts = w.debt.debts)
    (hn : w'.debt.nextDebtId = w.debt.nextDebtId) : Pres w w' := by
  refine ⟨fun hi u t => ?_, fun hx => ?_, by rw [hn], fun hp => ⟨?_, ?_⟩⟩
  · rw [hs]; exact hi u t
  · rw [hs]; exact hx
  · intro id hle
    rw [hn] at hle
    rw [hdd]
    exact hp id hle
  · intro id
    rw [hdd]
    exact ⟨fun _ => rfl, Or.inl rfl⟩

theorem stake_ok_pres {cfg : Cfg} {caller token amount now apy : Nat} {w w' : World}
    (h : stake cfg caller token amount now apy w = .ok w') : Pres w w' := by
  unfold stake at h
  split_ifs at h with h1 h2
  cases hur : updateRewards caller token now apy w.staking with
  | error e => rw [hur] at h; exact Except.noConfusion h
  | ok s1 =>
    rw [hur] at h; dsimp only at h
    obtain ⟨ho, hs, hsup, hr, hz, hy⟩ := updateRewards_ok hur
    cases htr : transferTok w.bal token caller cfg.stakingAddr amount with
    | error e => rw [htr] at h; exact Except.noConfusion h
    | ok b1 =>
      rw [htr] at h; dsimp only at h
      cases hd : (if s1.yieldStrategy ≠ 0 then
          transferTok b1 token cfg.stakingAddr s1.yieldStrategy amount
        else .ok b1) with
      | error e => rw [hd] at h; exact Except.noConfusion h
      | ok b2 =>
        rw [hd] at h; dsimp only at h
        rw [Except.ok.injEq] at h
        subst h
        refine ⟨fun hi u t => ?_, fun hx => ?_, le_refl _, debtClause_of_eq rfl⟩
        · dsimp only
          rw [hs]
          by_cases hc : u = caller ∧ t = token
          · obtain ⟨hu, ht⟩ := hc; subst hu; subst ht
            rw [upd2_same]
            have := hi u t
            dsimp only
            omega
          · rw [upd2_other _ _ _ _ _ _ hc]; exact hi u t
        · dsimp only; rw [hr]; exact hx

theorem unstake_ok_pres {cfg : Cfg} {caller token amount now apy : Nat} {w w' : World}
    (h : unstake cfg caller token amount now apy w = .ok w') : Pres w w' := by
  unfold unstake at h
  dsimp only at h
  split_ifs at h with h1 h2 h3 h4
  cases hur : updateRewards caller token now apy w.staking with
  | error e => rw [hur] at h; exact Except.noConfusion h
  | ok s1 =>
    rw [hur] at h; dsimp only at h
    obtain ⟨ho, hs, hsup, hr, hz, hy⟩ := updateRewards_ok hur
    cases hd : (if s1.yieldStrategy ≠ 0 then
        transferTok w.bal token s1.yieldStrategy cfg.stakingAddr amount
      else .ok w.bal) with
    | error e => rw [hd] at h; exact Except.noConfusion h
    | ok b1 =>
      rw [hd] at h; dsimp only at h
      cases htr : transferTok b1 token cfg.stakingAddr caller amount with
      | error e => rw [htr] at h; exact Except.noConfusion h
      | ok b2 =>
        rw [htr] at h; dsimp only at h
        rw [Except.ok.injEq] at h
        subst h
        refine ⟨fun hi u t => ?_, fun hx => ?_, le_refl _, debtClause_of_eq rfl⟩
        · dsimp only
          rw [hs]
          by_cases hc : u = caller ∧ t = token
          · obtain ⟨hu, ht⟩ := hc; subst hu; subst ht
            rw [upd2_same]
            dsimp only
            omega
          · rw [upd2_other _ _ _ _ _ _ hc]; exact hi u t
        · dsimp only; rw [hr]; exact hx

theorem lockCollateral_ok_pres {cfg : Cfg} {caller user token amount : Nat} {w w' : World}
    (h : lockCollateral cfg caller user token amount w = .ok w') : Pres w w' := by
  obtain ⟨hc, hle, hamt, hw⟩ := lockCollateral_ok h
  subst hw
  refine ⟨fun hi u t => ?_, fun hx => hx, le_refl _, debtClause_of_eq rfl⟩
  dsimp only
  by_cases hct : u = user ∧ t = token
  · obtain ⟨hu, ht⟩ := hct; subst hu; subst ht
    rw [upd2_same]; dsimp only; omega
  · rw [upd2_other _ _ _ _ _ _ hct]; exact hi u t

theorem unlockCollateral_ok_pres {cfg : Cfg} {caller user token amount : Nat} {w w' : World}
    (h : unlockCollateral cfg caller user token amount w = .ok w') : Pres w w' := by
  obtain ⟨hc, hle, hw⟩ := unlockCollateral_ok h
  subst hw
  refine ⟨fun hi u t => ?_, fun hx => hx, le_refl _, debtClause_of_eq rfl⟩
  dsimp only
  by_cases hct : u = user ∧ t = token
  · obtain ⟨hu, ht⟩ := hct; subst hu; subst ht
    rw [upd2_same]; dsimp only
    have := hi u t
    omega
  · rw [upd2_other _ _ _ _ _ _ hct]; exact hi u t

theorem liquidateCollateral_ok_pres {cfg : Cfg}
    {caller user token amount recipient : Nat} {w w' : World}
    (h : liquidateCollateral cfg caller user token amount recipient w = .ok w') :
    Pres w w' := by
  obtain ⟨hc, hl, ha, b1, b2, hb1, hb2, hw⟩ := liquidateCollateral_ok h
  subst hw
  refine ⟨fun hi u t => ?_, fun hx => hx, le_refl _, debtClause_of_eq rfl⟩
  dsimp only
  by_cases hct : u = user ∧ t = token
  · obtain ⟨hu, ht⟩ := hct; subst hu; subst ht
    rw [upd2_same]; dsimp only
    have := hi u t
    omega
  · rw [upd2_other _ _ _ _ _ _ hct]; exact hi u t

theorem setZeroDebtContract_ok_pres {caller a : Nat} {w w' : World}
    (h : setZeroDebtContract caller a w = .ok w') : Pres w w' := by
  unfold setZeroDebtContract at h
  split_ifs at h
  rw [Except.ok.injEq] at h
  subst h
  exact pres_of_frames rfl rfl rfl

theorem setYieldStrategy_ok_pres {caller a : Nat} {w w' : World}
    (h : setYieldStrategy caller a w = .ok w') : Pres w w' := by
  unfold setYieldStrategy at h
  split_ifs at h
  rw [Except.ok.injEq] at h
  subst h
  exact pres_of_frames rfl rfl rfl

theorem addSupportedToken_ok_pres {caller token : Nat} {w w' : World}
    (h : addSupportedToken caller token w = .ok w') : Pres w w' := by
  unfold addSupportedToken at h
  split_ifs at h
  rw [Except.ok.injEq] at h
  subst h
  exact pres_of_frames rfl rfl rfl

theorem removeSupportedToken_ok_pres {caller token : Nat} {w w' : World}
    (h : removeSupportedToken caller token w = .ok w') : Pres w w' := by
  unfold removeSupportedToken at h
  split_ifs at h
  rw [Except.ok.injEq] at h
  subst h
  exact pres_of_frames rfl rfl rfl

theorem setCollateralRatio_ok_pres {caller ratio : Nat} {w w' : World}
    (h : setCollateralRatio caller ratio w = .ok w') : Pres w w' := by
  unfold setCollateralRatio at h
  split_ifs at h with h1 h2
  rw [Except.ok.injEq] at h
  subst h
  exact ⟨fun hi u t => hi u t, fun _ => by dsimp only; omega, le_refl _,
    debtClause_of_eq rfl⟩

theorem authorizeIntegrator_ok_pres {caller integrator : Nat} {w w' : World}
    (h : authorizeIntegrator caller integrator w = .ok w') : Pres w w' := by
  unfold authorizeIntegrator at h
  split_ifs at h
  rw [Except.ok.injEq] at h
  subst h
  exact pres_of_debt_bookkeeping rfl rfl rfl

theorem deauthorizeIntegrator_ok_pres {caller integrator : Nat} {w w' : World}
    (h : deauthorizeIntegrator caller integrator w = .ok w') : Pres w w' := by
  unfold deauthorizeIntegrator at h
  split_ifs at h
  rw [Except.ok.injEq] at h
  subst h
  exact pres_of_debt_bookkeeping rfl rfl rfl

theorem setPlatformFee_ok_pres {caller fee : Nat} {w w' : World}
    (h : setPlatformFee caller fee w = .ok w') : Pres w w' := by
  unfold setPlatformFee at h
  split_ifs at h
  rw [Except.ok.injEq] at h
  subst h
  exact pres_of_debt_bookkeeping rfl rfl rfl

theorem setDefaultPenalty_ok_pres {caller penalty : Nat} {w w' : World}
    (h : setDefaultPenalty caller penalty w = .ok w') : Pres w w' := by
  unfold setDefaultPenalty at h
  split_ifs at h
  rw [Except.ok.injEq] at h
  subst h
  exact pres_of_debt_bookkeeping rfl rfl rfl

theorem setMinimumRepaymentPeriod_ok_pres {caller p : Nat} {w w' : World}
    (h : setMinimumRepaymentPeriod caller p w = .ok w') : Pres w w' := by
  unfold setMinimumRepaymentPeriod at h
  split_ifs at h
  rw [Except.ok.injEq] at h
  subst h
  exact pres_of_debt_bookkeeping rfl rfl rfl

theorem setMaximumRepaymentPeriod_ok_pres {caller p : Nat} {w w' : World}
    (h : setMaximumRepaymentPeriod caller p w = .ok w') : Pres w w' := by
  unfold setMaximumRepaymentPeriod at h
  split_ifs at h
  rw [Except.ok.injEq] at h
  subst h
  exact pres_of_debt_bookkeeping rfl rfl rfl

theorem withdrawFees_ok_pres {cfg : Cfg} {caller token recipient : Nat} {w w' : World}
    (h : withdrawFees cfg caller token recipient w = .ok w') : Pres w w' := by
  unfold withdrawFees at h
  split_ifs at h with h1 h2 h3
  · cases htr : transferTok w.bal token cfg.debtAddr recipient (w.bal token cfg.debtAddr) with
    | error e => rw [htr] at h; exact Except.noConfusion h
    | ok b1 =>
      rw [htr] at h; dsimp only at h
      rw [Except.ok.injEq] at h
      subst h
      exact pres_of_frames rfl rfl rfl
  · rw [Except.ok.injEq] at h
    subst h
    exact pres_refl w

theorem repayDebt_ok {cfg : Cfg} {caller debtId now : Nat} {w w' : World}
    (h : repayDebt cfg caller debtId now w = .ok w') :
    ∃ b1 w1,
      caller = (w.debt.debts debtId).borrower ∧
      (w.debt.debts debtId).repaid = false ∧
      (w.debt.debts debtId).liquidated = false ∧
      transferTok w.bal (w.debt.debts debtId).token caller cfg.debtAddr
        (if (w.debt.debts debtId).repaymentDeadline < now then
           (w.debt.debts debtId).amount +
             (w.debt.debts debtId).amount * (w.debt.debts debtId).penalty / 10000
         else (w.debt.debts debtId).amount) = .ok b1 ∧
      unlockCollateral cfg cfg.debtAddr (w.debt.debts debtId).borrower
        (w.debt.debts debtId).collateralToken (w.debt.debts debtId).collateralAmount
        { w with bal := b1 } = .ok w1 ∧
      w'.staking = w1.staking ∧
      w'.bal = b1 ∧
      w'.debt.debts = upd1 w.debt.debts debtId
        { w.debt.debts debtId with repaid := true } ∧
      w'.debt.nextDebtId = w.debt.nextDebtId := by
  unfold repayDebt at h
  dsimp only at h
  generalize hR : (if (w.debt.debts debtId).repaymentDeadline < now then
      (w.debt.debts debtId).amount +
        (w.debt.debts debtId).amount * (w.debt.debts debtId).penalty / 10000
    else (w.debt.debts debtId).amount) = R at h
  split_ifs at h with h1 h2 h3
  cases htr : transferTok w.bal (w.debt.debts debtId).token caller cfg.debtAddr R with
  | error e => rw [htr] at h; exact Except.noConfusion h
  | ok b1 =>
    rw [htr] at h; dsimp only at h
    cases hu : unlockCollateral cfg cfg.debtAddr (w.debt.debts debtId).borrower
        (w.debt.debts debtId).collateralToken (w.debt.debts debtId).collateralAmount
        { w with bal := b1 } with
    | error e => rw [hu] at h; exact Except.noConfusion h
    | ok w1 =>
      rw [hu] at h; dsimp only at h
      rw [Except.ok.injEq] at h
      subst h
      obtain ⟨hcz, hle, hw1⟩ := unlockCollateral_ok hu
      refine ⟨b1, w1, (not_not.mp h1).symm, by simpa using h2, by simpa using h3,
        rfl, hu, rfl, ?_, ?_, ?_⟩
      · rw [hw1]
      · rw [hw1]
      · rw [hw1]

theorem liquidateDebt_ok {cfg : Cfg} {caller debtId now : Nat} {w w' : World}
    (h : liquidateDebt cfg caller debtId now w = .ok w') :
    (w.debt.debts debtId).repaid = false ∧
    (w.debt.debts debtId).liquidated = false ∧
    (w.debt.debts debtId).repaymentDeadline < now ∧
    ∃ w1 b1,
      liquidateCollateral cfg cfg.debtAddr (w.debt.debts debtId).borrower
        (w.debt.debts debtId).collateralToken (w.debt.debts debtId).collateralAmount
        cfg.debtAddr w = .ok w1 ∧
      (if (w.debt.debts debtId).amount * (w.debt.debts debtId).penalty / 10000 / 2 > 0 then
         transferTok w1.bal (w.debt.debts debtId).token cfg.debtAddr
           (w.debt.debts debtId).merchant
           ((w.debt.debts debtId).amount * (w.debt.debts debtId).penalty / 10000 / 2)
       else .ok w1.bal) = .ok b1 ∧
      w'.staking = w1.staking ∧
      w'.bal = b1 ∧
      w'.debt.debts = upd1 w.debt.debts debtId
        { w.debt.debts debtId with liquidated := true } ∧
      w'.debt.nextDebtId = w.debt.nextDebtId := by
  unfold liquidateDebt at h
  dsimp only at h
  split_ifs at h with h1 h2 h3 h4
  · cases hl : liquidateCollateral cfg cfg.debtAddr (w.debt.debts debtId).borrower
        (w.debt.debts debtId).collateralToken (w.debt.debts debtId).collateralAmount
        cfg.debtAddr w with
    | error e => rw [hl] at h; exact Except.noConfusion h
    | ok w1 =>
      rw [hl] at h; dsimp only at h
      obtain ⟨hcz, hla, haa, bx, bY, hbx, hbY, hw1⟩ := liquidateCollateral_ok hl
      have hfd : w1.debt = w.debt := by rw [hw1]
      rw [hfd] at h
      cases htr : transferTok w1.bal (w.debt.debts debtId).token cfg.debtAddr
          (w.debt.debts debtId).merchant
          ((w.debt.debts debtId).amount * (w.debt.debts debtId).penalty / 10000 / 2) with
      | error e => rw [htr] at h; exact Except.noConfusion h
      | ok b1 =>
        rw [htr] at h; dsimp only at h
        rw [Except.ok.injEq] at h
        subst h
        exact ⟨by simpa using h1, by simpa using h2, h3, w1, b1,
          by first | rfl | exact hl, by simp only [if_pos h4, htr], rfl, rfl, rfl, rfl⟩
  · cases hl : liquidateCollateral cfg cfg.debtAddr (w.debt.debts debtId).borrower
        (w.debt.debts debtId).collateralToken (w.debt.debts debtId).collateralAmount
        cfg.debtAddr w with
    | error e => rw [hl] at h; exact Except.noConfusion h
    | ok w1 =>
      rw [hl] at h; dsimp only at h
      obtain ⟨hcz, hla, haa, bx, bY, hbx, hbY, hw1⟩ := liquidateCollateral_ok hl
      have hfd : w1.debt = w.debt := by rw [hw1]
      rw [hfd] at h
      rw [Except.ok.injEq] at h
      subst h
      exact ⟨by simpa using h1, by simpa using h2, h3, w1, w1.bal,
        by first | rfl | exact hl, by simp only [if_neg h4], rfl, rfl, rfl, rfl⟩

theorem createDebt_ok {cfg : Cfg}
    {caller merchant paymentToken paymentAmount collateralToken repaymentPeriod now : Nat}
    {w : World} {r : World × Nat}
    (h : createDebt cfg caller merchant paymentToken paymentAmount collateralToken
      repaymentPeriod now w = .ok r) :
    ∃ w1 b1 b2,
      lockCollateral cfg cfg.debtAddr caller collateralToken
        (paymentAmount * w.staking.collateralRatio / 10000) w = .ok w1 ∧
      w1.debt = w.debt ∧ w1.bal = w.bal ∧
      transferTok w.bal paymentToken caller merchant
        (paymentAmount - paymentAmount * w.debt.platformFee / 10000) = .ok b1 ∧
      (if paymentAmount * w.debt.platformFee / 10000 > 0 then
         transferTok b1 paymentToken caller cfg.debtAddr
           (paymentAmount * w.debt.platformFee / 10000)
       else .ok b1) = .ok b2 ∧
      r.2 = w.debt.nextDebtId ∧
      r.1.staking = w1.staking ∧
      r.1.bal = b2 ∧
      r.1.debt.nextDebtId = w.debt.nextDebtId + 1 ∧
      r.1.debt.debts = upd1 w.debt.debts w.debt.nextDebtId
        { borrower := caller, merchant := merchant, token := paymentToken
          amount := paymentAmount, collateralToken := collateralToken
          collateralAmount := paymentAmount * w.staking.collateralRatio / 10000
          repaymentDeadline := now + repaymentPeriod
          penalty := w.debt.defaultPenalty, repaid := false, liquidated := false } := by
  unfold createDebt at h
  split_ifs at h with h1 h2 h3 h4
  cases hcred : getAvailableCredit w.staking caller collateralToken with
  | error e => rw [hcred] at h; exact Except.noConfusion h
  | ok credit =>
    rw [hcred] at h; dsimp only at h
    split_ifs at h with h5
    cases hl : lockCollateral cfg cfg.debtAddr caller collateralToken
        (paymentAmount * w.staking.collateralRatio / 10000) w with
    | error e => rw [hl] at h; exact Except.noConfusion h
    | ok w1 =>
      rw [hl] at h; dsimp only at h
      obtain ⟨hcz, hcle, hcam, hw1⟩ := lockCollateral_ok hl
      have hfd : w1.debt = w.debt := by rw [hw1]
      have hfb : w1.bal = w.bal := by rw [hw1]
      rw [hfd, hfb] at h
      split_ifs at h with h6 h7
      · cases htr1 : transferTok w.bal paymentToken caller merchant
            (paymentAmount - paymentAmount * w.debt.platformFee / 10000) with
        | error e => rw [htr1] at h; exact Except.noConfusion h
        | ok b1 =>
          rw [htr1] at h; dsimp only at h
          cases htr2 : transferTok b1 paymentToken caller cfg.debtAddr
              (paymentAmount * w.debt.platformFee / 10000) with
          | error e => rw [htr2] at h; exact Except.noConfusion h
          | ok b2 =>
            rw [htr2] at h; dsimp only at h
            rw [Except.ok.injEq] at h
            subst h
            exact ⟨w1, b1, b2, by first | rfl | exact hl, hfd, hfb,
              by first | rfl | exact htr1, by simp only [if_pos h7, htr2],
              rfl, rfl, rfl, rfl, rfl⟩
      · cases htr1 : transferTok w.bal paymentToken caller merchant
            (paymentAmount - paymentAmount * w.debt.platformFee / 10000) with
        | error e => rw [htr1] at h; exact Except.noConfusion h
        | ok b1 =>
          rw [htr1] at h; dsimp only at h
          rw [Except.ok.injEq] at h
          subst h
          exact ⟨w1, b1, b1, by first | rfl | exact hl, hfd, hfb,
            by first | rfl | exact htr1, by simp only [if_neg h7],
            rfl, rfl, rfl, rfl, rfl⟩

theorem createDebtFor_ok {cfg : Cfg}
    {caller borrower merchant paymentToken paymentAmount collateralToken
      repaymentPeriod now : Nat} {w : World} {r : World × Nat}
    (h : createDebtFor cfg caller borrower merchant paymentToken paymentAmount
      collateralToken repaymentPeriod now w = .ok r) :
    ∃ w1,
      lockCollateral cfg cfg.debtAddr borrower collateralToken
        (paymentAmount * w.staking.collateralRatio / 10000) w = .ok w1 ∧
      r.1.staking = w1.staking ∧
      r.1.debt.nextDebtId = w.debt.nextDebtId + 1 ∧
      r.1.debt.debts = upd1 w.debt.debts w.debt.nextDebtId
        { borrower := borrower, merchant := merchant, token := paymentToken
          amount := paymentAmount, collateralToken := collateralToken
          collateralAmount := paymentAmount * w.staking.collateralRatio / 10000
          repaymentDeadline := now + repaymentPeriod
          penalty := w.debt.defaultPenalty, repaid := false, liquidated := false } := by
  unfold createDebtFor at h
  split_ifs at h with h1 h2 h3 h4 h5 h6
  cases hcred : getAvailableCredit w.staking borrower collateralToken with
  | error e => rw [hcred] at h; exact Except.noConfusion h
  | ok credit =>
    rw [hcred] at h; dsimp only at h
    split_ifs at h with h7
    cases hl : lockCollateral cfg cfg.debtAddr borrower collateralToken
        (paymentAmount * w.staking.collateralRatio / 10000) w with
    | error e => rw [hl] at h; exact Except.noConfusion h
    | ok w1 =>
      rw [hl] at h; dsimp only at h
      obtain ⟨hcz, hcle, hcam, hw1⟩ := lockCollateral_ok hl
      have hfd : w1.debt = w.debt := by rw [hw1]
      have hfb : w1.bal = w.bal := by rw [hw1]
      rw [hfd, hfb] at h
      split_ifs at h with h8
      cases htr1 : transferTok w.bal paymentToken cfg.debtAddr merchant
          (paymentAmount - paymentAmount * w.debt.platformFee / 10000) with
      | error e => rw [htr1] at h; exact Except.noConfusion h
      | ok b1 =>
        rw [htr1] at h; dsimp only at h
        rw [Except.ok.injEq] at h
        subst h
        exact ⟨w1, by first | rfl | exact hl, rfl, rfl, rfl⟩

theorem createDebt_ok_pres {cfg : Cfg}
    {caller merchant paymentToken paymentAmount collateralToken repaymentPeriod now : Nat}
    {w : World} {r : World × Nat}
    (h : createDebt cfg caller merchant paymentToken paymentAmount collateralToken
      repaymentPeriod now w = .ok r) : Pres w r.1 := by
  obtain ⟨w1, b1, b2, hl, hfd, hfb, htr1, htr2, hr2, hrs, hrb, hrn, hrd⟩ := createDebt_ok h
  have hp := lockCollateral_ok_pres hl
  refine ⟨fun hi u t => ?_, fun hx => ?_, by omega, fun hph => ⟨?_, ?_⟩⟩
  · rw [hrs]; exact hp.1 hi u t
  · rw [hrs]; exact hp.2.1 hx
  · intro id hle
    rw [hrn] at hle
    rw [hrd, upd1_other _ _ _ _ (by omega : id ≠ w.debt.nextDebtId)]
    exact hph id (by omega)
  · intro id
    by_cases hc : id = w.debt.nextDebtId
    · subst hc
      have hz : w.debt.debts w.debt.nextDebtId = zeroDebtInfo :=
        hph w.debt.nextDebtId (le_refl _)
      constructor
      · intro hterm
        rw [hz] at hterm
        exact absurd rfl hterm
      · rw [hrd, upd1_same, hz]
        exact Or.inl rfl
    · rw [hrd, upd1_other _ _ _ _ hc]
      exact ⟨fun _ => rfl, Or.inl rfl⟩

theorem createDebtFor_ok_pres {cfg : Cfg}
    {caller borrower merchant paymentToken paymentAmount collateralToken
      repaymentPeriod now : Nat} {w : World} {r : World × Nat}
    (h : createDebtFor cfg caller borrower merchant paymentToken paymentAmount
      collateralToken repaymentPeriod now w = .ok r) : Pres w r.1 := by
  obtain ⟨w1, hl, hrs, hrn, hrd⟩ := createDebtFor_ok h
  have hp := lockCollateral_ok_pres hl
  refine ⟨fun hi u t => ?_, fun hx => ?_, by omega, fun hph => ⟨?_, ?_⟩⟩
  · rw [hrs]; exact hp.1 hi u t
  · rw [hrs]; exact hp.2.1 hx
  · intro id hle
    rw [hrn] at hle
    rw [hrd, upd1_other _ _ _ _ (by omega : id ≠ w.debt.nextDebtId)]
    exact hph id (by omega)
  · intro id
    by_cases hc : id = w.debt.nextDebtId
    · subst hc
      have hz : w.debt.debts w.debt.nextDebtId = zeroDebtInfo :=
        hph w.debt.nextDebtId (le_refl _)
      constructor
      · intro hterm
        rw [hz] at hterm
        exact absurd rfl hterm
      · rw [hrd, upd1_same, hz]
        exact Or.inl rfl
    · rw [hrd, upd1_other _ _ _ _ hc]
      exact ⟨fun _ => rfl, Or.inl rfl⟩

theorem repayDebt_ok_pres {cfg : Cfg} {caller debtId now : Nat} {w w' : World}
    (h : repayDebt cfg caller debtId now w = .ok w') : Pres w w' := by
  obtain ⟨b1, w1, hcb, hru, hlq, htr, hu, hs, hb, hdd, hnn⟩ := repayDebt_ok h
  have hp := unlockCollateral_ok_pres hu
  have htok0 : (w.debt.debts debtId).token ≠ 0 := (transferTok_ok htr).1
  refine ⟨fun hi u t => ?_, fun hx => ?_, by omega, fun hph => ?_⟩
  · rw [hs]; exact hp.1 (fun u t => hi u t) u t
  · rw [hs]; exact hp.2.1 hx
  · have hlt : debtId < w.debt.nextDebtId := by
      by_contra hge
      have hz := hph debtId (by omega)
      rw [hz] at htok0
      exact htok0 rfl
    constructor
    · intro id hle
      rw [hnn] at hle
      rw [hdd, upd1_other _ _ _ _ (by omega : id ≠ debtId)]
      exact hph id hle
    · intro id
      by_cases hc : id = debtId
      · subst hc
        constructor
        · intro hterm
          exact absurd (by simp [dstatus, hru, hlq]) hterm
        · rw [hdd, upd1_same]
          refine Or.inr ⟨by simp [dstatus, hru, hlq], Or.inl ?_⟩
          simp [dstatus]
      · rw [hdd, upd1_other _ _ _ _ hc]
        exact ⟨fun _ => rfl, Or.inl rfl⟩

theorem liquidateDebt_ok_pres {cfg : Cfg} {caller debtId now : Nat} {w w' : World}
    (h : liquidateDebt cfg caller debtId now w = .ok w') : Pres w w' := by
  obtain ⟨hru, hlq, hdl, w1, b1, hl, htr, hs, hb, hdd, hnn⟩ := liquidateDebt_ok h
  have hp := liquidateCollateral_ok_pres hl
  obtain ⟨hcz, hla, haa, bx, bY, hbx, hbY, hw1⟩ := liquidateCollateral_ok hl
  have hcol0 : (w.debt.debts debtId).collateralToken ≠ 0 := (transferTok_ok hbY).1
  refine ⟨fun hi u t => ?_, fun hx => ?_, by omega, fun hph => ?_⟩
  · rw [hs]; exact hp.1 hi u t
  · rw [hs]; exact hp.2.1 hx
  · have hlt : debtId < w.debt.nextDebtId := by
      by_contra hge
      have hz := hph debtId (by omega)
      rw [hz] at hcol0
      exact hcol0 rfl
    constructor
    · intro id hle
      rw [hnn] at hle
      rw [hdd, upd1_other _ _ _ _ (by omega : id ≠ debtId)]
      exact hph id hle
    · intro id
      by_cases hc : id = debtId
      · subst hc
        constructor
        · intro hterm
          exact absurd (by simp [dstatus, hru, hlq]) hterm
        · rw [hdd, upd1_same]
          refine Or.inr ⟨by simp [dstatus, hru, hlq], Or.inr ?_⟩
          simp [dstatus, hru]
      · rw [hdd, upd1_other _ _ _ _ hc]
        exact ⟨fun _ => rfl, Or.inl rfl⟩

/-- Every single transaction of the combined system preserves the collateral
invariant, the ratio lower bound, and the debt state machine on created ids. -/
theorem step_pres {cfg : Cfg} {w w' : World} (h : Step cfg w w') : Pres w w' := by
  cases h with
  | stake caller token amount now apy h => exact stake_ok_pres h
  | unstake caller token amount now apy h => exact unstake_ok_pres h
  | lockCollateral caller user token amount h => exact lockCollateral_ok_pres h
  | unlockCollateral caller user token amount h => exact unlockCollateral_ok_pres h
  | liquidateCollateral caller user token amount recipient h =>
      exact liquidateCollateral_ok_pres h
  | setZeroDebtContract caller a h => exact setZeroDebtContract_ok_pres h
  | setYieldStrategy caller a h => exact setYieldStrategy_ok_pres h
  | addSupportedToken caller token h => exact addSupportedToken_ok_pres h
  | removeSupportedToken caller token h => exact removeSupportedToken_ok_pres h
  | setCollateralRatio caller ratio h => exact setCollateralRatio_ok_pres h
  | createDebt caller merchant paymentToken paymentAmount collateralToken
      repaymentPeriod now h => exact createDebt_ok_pres h
  | createDebtFor caller borrower merchant paymentToken paymentAmount
      collateralToken repaymentPeriod now h => exact createDebtFor_ok_pres h
  | repayDebt caller debtId now h => exact repayDebt_ok_pres h
  | liquidateDebt caller debtId now h => exact liquidateDebt_ok_pres h
  | authorizeIntegrator caller integrator h => exact authorizeIntegrator_ok_pres h
  | deauthorizeIntegrator caller integrator h => exact deauthorizeIntegrator_ok_pres h
  | setPlatformFee caller fee h => exact setPlatformFee_ok_pres h
  | setDefaultPenalty caller penalty h => exact setDefaultPenalty_ok_pres h
  | setMinimumRepaymentPeriod caller p h => exact setMinimumRepaymentPeriod_ok_pres h
  | setMaximumRepaymentPeriod caller p h => exact setMaximumRepaymentPeriod_ok_pres h
  | withdrawFees caller token recipient h => exact withdrawFees_ok_pres h
  | extTransfer token source dest amt hs hd h => exact pres_of_frames rfl rfl rfl

/-- The collateral invariant and the ratio bound hold in every reachable
state. -/
theorem reachable_inv {cfg : Cfg} {w : World} (h : Reachable cfg w) :
    StakeInv w ∧ 10000 ≤ w.staking.collateralRatio ∧ PhantomInv w := by
  obtain ⟨so, dbo, b, hr⟩ := h
  induction hr with
  | refl =>
      exact ⟨fun u t => le_refl 0, by norm_num [initWorld, initStaking],
        fun id _ => rfl⟩
  | tail hsteps hstep ih =>
      obtain ⟨hi, hratio, hph⟩ := ih
      have hp := step_pres hstep
      exact ⟨hp.1 hi, hp.2.1 hratio, (hp.2.2.2 hph).1⟩

/-- C1: for every (user, asset) pair the invariant `locked ≤ staked` holds in
every reachable state, and each of stake, unstake, lockCollateral,
unlockCollateral and liquidateCollateral preserves it whenever it succeeds
(a rejected call is an `.error` and leaves the state unchanged by
construction of the embedding). -/
theorem spec_C1 (cfg : Cfg) (w : World) (hw : Reachable cfg w) :
    StakeInv w ∧
    (∀ caller token amount now apy w',
      stake cfg caller token amount now apy w = .ok w' → StakeInv w') ∧
    (∀ caller token amount now apy w',
      unstake cfg caller token amount now apy w = .ok w' → StakeInv w') ∧
    (∀ caller user token amount w',
      lockCollateral cfg caller user token amount w = .ok w' → StakeInv w') ∧
    (∀ caller user token amount w',
      unlockCollateral cfg caller user token amount w = .ok w' → StakeInv w') ∧
    (∀ caller user token amount recipient w',
      liquidateCollateral cfg caller user token amount recipient w = .ok w' → StakeInv w') := by
  have hi := (reachable_inv hw).1
  exact ⟨hi,
    fun _ _ _ _ _ _ h => (stake_ok_pres h).1 hi,
    fun _ _ _ _ _ _ h => (unstake_ok_pres h).1 hi,
    fun _ _ _ _ _ h => (lockCollateral_ok_pres h).1 hi,
    fun _ _ _ _ _ h => (unlockCollateral_ok_pres h).1 hi,
    fun _ _ _ _ _ _ h => (liquidateCollateral_ok_pres h).1 hi⟩

/-- Witness for C1 at a freshly deployed world. -/
theorem spec_C1_witness : StakeInv (initWorld 4 4 bal0) :=
  (spec_C1 cfg0 (initWorld 4 4 bal0) ⟨4, 4, bal0, Relation.ReflTransGen.refl⟩).1

/-- C2: once a debt reaches Repaid or Liquidated, every subsequent
repayDebt or liquidateDebt call on its id reverts with no state change; and
in every reachable state a transaction changes the status of each debt id
only along Open → Repaid or Open → Liquidated (a terminal record does not
change at all).  An uncreated id reads as an Open zero record, but
repayDebt and liquidateDebt on it revert inside the ERC20 call on the zero
token address, so no transition out of a terminal state is reachable. -/
theorem spec_C2 (cfg : Cfg) (w w' : World) (id : Nat)
    (hw : Reachable cfg w) (hstep : Step cfg w w') :
    (∀ caller now,
      (w.debt.debts id).repaid = true ∨ (w.debt.debts id).liquidated = true →
      (∃ e, repayDebt cfg caller id now w = .error e) ∧
      (∃ e, liquidateDebt cfg caller id now w = .error e)) ∧
    (dstatus (w.debt.debts id) ≠ 0 → w'.debt.debts id = w.debt.debts id) ∧
    statusStep (dstatus (w.debt.debts id)) (dstatus (w'.debt.debts id)) := by
  have hd := (step_pres hstep).2.2.2 (reachable_inv hw).2.2
  refine ⟨?_, (hd.2 id).1, (hd.2 id).2⟩
  · intro caller now hterm
    constructor
    · unfold repayDebt
      dsimp only
      split_ifs with h1 h2 h3 h4
      any_goals exact ⟨_, rfl⟩
      all_goals rcases hterm with ht | ht <;>
        first | exact absurd ht h2 | exact absurd ht h3
    · unfold liquidateDebt
      dsimp only
      split_ifs with h1 h2 h3 h4
      any_goals exact ⟨_, rfl⟩
      all_goals rcases hterm with ht | ht <;>
        first | exact absurd ht h1 | exact absurd ht h2

/-- Witness for C2 on a concrete reachable state and step. -/
theorem spec_C2_witness :
    statusStep (dstatus (wInit.debt.debts 1)) (dstatus (wInitAdd.debt.debts 1)) :=
  (spec_C2 cfg0 wInit wInitAdd 1 ⟨4, 4, bal0, Relation.ReflTransGen.refl⟩
    (Step.addSupportedToken 4 11 rfl)).2.2

/-- C5: `getAvailableCredit` returns exactly
`(staked − locked) × 10000 / collateralRatio` (integer truncation) whenever
the view does not revert. -/
theorem spec_C5 (s : StakingState) (user token : Nat)
    (h1 : (s.stakes user token).lockedAmount ≤ (s.stakes user token).amount)
    (h2 : s.collateralRatio ≠ 0) :
    getAvailableCredit s user token =
      .ok (((s.stakes user token).amount - (s.stakes user token).lockedAmount) * 10000
        / s.collateralRatio) := by
  unfold getAvailableCredit
  rw [if_neg (by omega), if_neg h2]

/-- Witness for C5: scenario A of the spec — staked 1000, locked 0, ratio
15000 gives credit 666. -/
theorem spec_C5_witness : getAvailableCredit w0.staking 5 7 = .ok 666 := by
  have h := spec_C5 w0.staking 5 7 (by decide) (by decide)
  exact h.trans (by decide)

/-- C7: lockCollateral, unlockCollateral and liquidateCollateral revert with
the authorization error for every caller other than the registered debt
ledger. -/
theorem spec_C7 (cfg : Cfg) (caller user token amount recipient : Nat) (w : World)
    (h : caller ≠ w.staking.zeroDebtContract) :
    lockCollateral cfg caller user token amount w =
      .error "Only ZeroDebt contract can lock collateral" ∧
    unlockCollateral cfg caller user token amount w =
      .error "Only ZeroDebt contract can unlock collateral" ∧
    liquidateCollateral cfg caller user token amount recipient w =
      .error "Only ZeroDebt contract can liquidate collateral" := by
  refine ⟨?_, ?_, ?_⟩
  · unfold lockCollateral; rw [if_pos h]
  · unfold unlockCollateral; rw [if_pos h]
  · unfold liquidateCollateral; rw [if_pos h]

/-- Witness for C7: caller 9 is not the registered debt ledger (address 2). -/
theorem spec_C7_witness :
    lockCollateral cfg0 9 5 7 10 w0 =
      .error "Only ZeroDebt contract can lock collateral" ∧
    unlockCollateral cfg0 9 5 7 10 w0 =
      .error "Only ZeroDebt contract can unlock collateral" ∧
    liquidateCollateral cfg0 9 5 7 10 6 w0 =
      .error "Only ZeroDebt contract can liquidate collateral" :=
  spec_C7 cfg0 9 5 7 10 6 w0 (by decide)

/-- C10: in every reachable state the collateral ratio is at least 10000
basis points (initialized to 15000, and `setCollateralRatio` rejects less
than 10000), hence `getAvailableCredit` never exceeds the free balance
`staked − locked`. -/
theorem spec_C10 (cfg : Cfg) (w : World) (hw : Reachable cfg w) :
    10000 ≤ w.staking.collateralRatio ∧
    ∀ user token v, getAvailableCredit w.staking user token = .ok v →
      v ≤ (w.staking.stakes user token).amount - (w.staking.stakes user token).lockedAmount := by
  obtain ⟨hi, hr, hph⟩ := reachable_inv hw
  refine ⟨hr, fun user token v hv => ?_⟩
  unfold getAvailableCredit at hv
  dsimp only at hv
  split_ifs at hv with h1 h2
  rw [Except.ok.injEq] at hv
  subst hv
  calc ((w.staking.stakes user token).amount - (w.staking.stakes user token).lockedAmount)
        * 10000 / w.staking.collateralRatio
      ≤ ((w.staking.stakes user token).amount - (w.staking.stakes user token).lockedAmount)
        * 10000 / 10000 := Nat.div_le_div_left hr (by norm_num)
    _ = (w.staking.stakes user token).amount - (w.staking.stakes user token).lockedAmount :=
        Nat.mul_div_cancel _ (by norm_num)

/-- C9: calling `updateAPY` (directly, or through `deposit`/`withdraw`,
which invoke it first) less than one day after `lastAPYUpdate` leaves the
snapshot ring buffer, `currentSnapshotIndex`, `currentAPY` and
`lastAPYUpdate` unchanged; and every guard-passing call that completes
(does not revert in the checked share-price arithmetic) stamps
`lastAPYUpdate` to its call time, so the ring buffer mutates at most once
per one-day interval however often it is triggered (a reverted call
changes nothing at all). -/
theorem spec_C9 (s : MorphoState) (now sharePrice : Nat)
    (h : now < s.apy.lastAPYUpdate + 86400) :
    updateAPY now sharePrice s.apy = .ok s.apy ∧
    (∀ caller token amount sharesMinted s',
      strategyDeposit caller token amount now sharePrice sharesMinted s = .ok s' →
        s'.apy = s.apy) ∧
    (∀ caller token amount userAssets sharesToRedeem s',
      strategyWithdraw caller token amount now sharePrice userAssets sharesToRedeem s
        = .ok s' → s'.apy = s.apy) ∧
    (∀ now2 p2 s2, s.apy.lastAPYUpdate + 86400 ≤ now2 →
      updateAPY now2 p2 s.apy = .ok s2 → s2.lastAPYUpdate = now2) := by
  have h0 : updateAPY now sharePrice s.apy = .ok s.apy := by
    unfold updateAPY; rw [if_pos h]
  refine ⟨h0, ?_, ?_, ?_⟩
  · intro caller token amount sharesMinted s' hd
    unfold strategyDeposit at hd
    rw [h0] at hd
    dsimp only at hd
    split_ifs at hd
    all_goals first
      | exact Except.noConfusion hd
      | (rw [Except.ok.injEq] at hd; subst hd; rfl)
  · intro caller token amount userAssets sharesToRedeem s' hd
    unfold strategyWithdraw at hd
    rw [h0] at hd
    dsimp only at hd
    split_ifs at hd
    all_goals first
      | exact Except.noConfusion hd
      | (rw [Except.ok.injEq] at hd; subst hd; rfl)
  · intro now2 p2 s2 h2 hok
    unfold updateAPY at hok
    rw [if_neg (by omega)] at hok
    dsimp only at hok
    split_ifs at hok <;>
      (rw [Except.ok.injEq] at hok; subst hok; rfl)

/-- Witness for C9 at a concrete strategy state: the early return at time
100, and a completing guard-passing call at time 86450 stamping
`lastAPYUpdate`. -/
theorem spec_C9_witness :
    updateAPY 100 5 mS0.apy = .ok mS0.apy ∧ mS1.lastAPYUpdate = 86450 :=
  ⟨(spec_C9 mS0 100 5 (by decide)).1,
   (spec_C9 mS0 100 5 (by decide)).2.2.2 86450 1000000000000000000 mS1
     (by decide) rfl⟩

/-- C6 fails on the code: the reward clock `lastRewardUpdate[user][token]`
is never initialized at the first stake (`_updateRewards` returns early on a
zero staked amount without stamping it), so the first later touch accrues
from timestamp 0 rather than from the stake.  Concretely: first stake of
315360000 at time 1000, then an unstake touch at time 2000 with APY 10000
accrues 20000 — the amount for 2000 elapsed seconds — where the claimed
"elapsed time since the last touch" accrual (1000 seconds) is 10000. -/
theorem spec_C6 :
    ((stake cfg0 5 7 315360000 1000 777 wC6).toOption.bind
      (fun w1 => (unstake cfg0 5 7 1 2000 10000 w1).toOption)).map
        (fun w => (w.staking.userRewards 5 7, w.staking.lastRewardUpdate 5 7)) =
      some (20000, 2000) ∧
    315360000 * 10000 * (2000 - 1000) / (31536000 * 10000) = 10000 ∧
    (20000 : Nat) ≠ 10000 := by
  refine ⟨by decide, by norm_num, by norm_num⟩

/-- Witness for C10 at a freshly deployed world. -/
theorem spec_C10_witness : 10000 ≤ (initWorld 4 4 bal0).staking.collateralRatio :=
  (spec_C10 cfg0 (initWorld 4 4 bal0) ⟨4, 4, bal0, Relation.ReflTransGen.refl⟩).1

/-- C3: a successful `repayDebt` implies the caller is the recorded
borrower and the debt was Open; it pulls exactly `amount` from the borrower
when `now ≤ deadline` and exactly `amount + amount × penalty / 10000` when
`now > deadline` (the debt ledger receiving the same), unlocks exactly the
recorded `collateralAmount` (leaving `staked` untouched), and sets the debt
to Repaid with all other fields preserved. -/
theorem spec_C3 (cfg : Cfg) (caller debtId now : Nat) (w w' : World)
    (h : repayDebt cfg caller debtId now w = .ok w')
    (hbd : (w.debt.debts debtId).borrower ≠ cfg.debtAddr) :
    caller = (w.debt.debts debtId).borrower ∧
    (w.debt.debts debtId).repaid = false ∧
    (w.debt.debts debtId).liquidated = false ∧
    w.bal (w.debt.debts debtId).token (w.debt.debts debtId).borrower =
      w'.bal (w.debt.debts debtId).token (w.debt.debts debtId).borrower +
        (if (w.debt.debts debtId).repaymentDeadline < now then
           (w.debt.debts debtId).amount +
             (w.debt.debts debtId).amount * (w.debt.debts debtId).penalty / 10000
         else (w.debt.debts debtId).amount) ∧
    w'.bal (w.debt.debts debtId).token cfg.debtAddr =
      w.bal (w.debt.debts debtId).token cfg.debtAddr +
        (if (w.debt.debts debtId).repaymentDeadline < now then
           (w.debt.debts debtId).amount +
             (w.debt.debts debtId).amount * (w.debt.debts debtId).penalty / 10000
         else (w.debt.debts debtId).amount) ∧
    (w.staking.stakes (w.debt.debts debtId).borrower
        (w.debt.debts debtId).collateralToken).lockedAmount =
      (w'.staking.stakes (w.debt.debts debtId).borrower
        (w.debt.debts debtId).collateralToken).lockedAmount +
        (w.debt.debts debtId).collateralAmount ∧
    (w'.staking.stakes (w.debt.debts debtId).borrower
        (w.debt.debts debtId).collateralToken).amount =
      (w.staking.stakes (w.debt.debts debtId).borrower
        (w.debt.debts debtId).collateralToken).amount ∧
    w'.debt.debts debtId = { w.debt.debts debtId with repaid := true } := by
  obtain ⟨b1, w1, hcb, hru, hlq, htr, hu, hs, hb, hdd, hnn⟩ := repayDebt_ok h
  obtain ⟨hcz, hle, hw1⟩ := unlockCollateral_ok hu
  have hsrc := transferTok_src htr (hcb ▸ hbd)
  have hdst := transferTok_dest htr (hcb ▸ hbd)
  have hstk : w'.staking.stakes (w.debt.debts debtId).borrower
      (w.debt.debts debtId).collateralToken =
      { w.staking.stakes (w.debt.debts debtId).borrower
          (w.debt.debts debtId).collateralToken with
        lockedAmount := (w.staking.stakes (w.debt.debts debtId).borrower
          (w.debt.debts debtId).collateralToken).lockedAmount -
            (w.debt.debts debtId).collateralAmount } := by
    rw [hs, hw1]
    dsimp only
    rw [upd2_same]
  refine ⟨hcb, hru, hlq, ?_, ?_, ?_, ?_, ?_⟩
  · rw [hb, ← hcb]; exact hsrc
  · rw [hb]; exact hdst
  · rw [hstk]
    dsimp only at hle ⊢
    omega
  · rw [hstk]
  · rw [hdd, upd1_same]

/-- Witness for C3: concrete repayment of debt 1 in `wR` before its
deadline (no penalty). -/
theorem spec_C3_witness :
    (5 : Nat) = (wR.debt.debts 1).borrower ∧
    wR.bal 8 5 = wRrep.bal 8 5 + 100 ∧
    wRrep.bal 8 2 = wR.bal 8 2 + 100 ∧
    (wR.staking.stakes 5 7).lockedAmount =
      (wRrep.staking.stakes 5 7).lockedAmount + 150 ∧
    (wRrep.staking.stakes 5 7).amount = (wR.staking.stakes 5 7).amount ∧
    wRrep.debt.debts 1 = { wR.debt.debts 1 with repaid := true } := by
  have H := spec_C3 cfg0 5 1 100 wR wRrep rfl (by decide)
  exact ⟨H.1, H.2.2.2.1, H.2.2.2.2.1, H.2.2.2.2.2.1, H.2.2.2.2.2.2.1, H.2.2.2.2.2.2.2⟩

/-- C4: a successful `liquidateDebt` (by any caller) implies the debt was
Open and past its deadline; it decreases both `staked` and `locked` by the
recorded `collateralAmount`, moves that full collateral into the debt
ledger's own balance, pays the merchant exactly
`⌊(amount × penalty / 10000) / 2⌋` of the payment token out of the debt
ledger's balance (the protocol share and the collateral remainder stay
there), and sets the debt to Liquidated; before the deadline the call
reverts with the deadline error. -/
theorem spec_C4 (cfg : Cfg) (caller debtId now : Nat) (w w' : World)
    (h : liquidateDebt cfg caller debtId now w = .ok w')
    (htok : (w.debt.debts debtId).token ≠ (w.debt.debts debtId).collateralToken)
    (hm : (w.debt.debts debtId).merchant ≠ cfg.debtAddr)
    (hsa : cfg.stakingAddr ≠ cfg.debtAddr)
    (hys : w.staking.yieldStrategy ≠ cfg.debtAddr) :
    (w.debt.debts debtId).repaid = false ∧
    (w.debt.debts debtId).liquidated = false ∧
    (w.debt.debts debtId).repaymentDeadline < now ∧
    (∀ now2, ¬ ((w.debt.debts debtId).repaymentDeadline < now2) → ∀ c,
      liquidateDebt cfg c debtId now2 w = .error "Repayment deadline not passed") ∧
    (w.staking.stakes (w.debt.debts debtId).borrower
        (w.debt.debts debtId).collateralToken).amount =
      (w'.staking.stakes (w.debt.debts debtId).borrower
        (w.debt.debts debtId).collateralToken).amount +
        (w.debt.debts debtId).collateralAmount ∧
    (w.staking.stakes (w.debt.debts debtId).borrower
        (w.debt.debts debtId).collateralToken).lockedAmount =
      (w'.staking.stakes (w.debt.debts debtId).borrower
        (w.debt.debts debtId).collateralToken).lockedAmount +
        (w.debt.debts debtId).collateralAmount ∧
    w'.bal (w.debt.debts debtId).collateralToken cfg.debtAddr =
      w.bal (w.debt.debts debtId).collateralToken cfg.debtAddr +
        (w.debt.debts debtId).collateralAmount ∧
    w'.bal (w.debt.debts debtId).token (w.debt.debts debtId).merchant =
      w.bal (w.debt.debts debtId).token (w.debt.debts debtId).merchant +
        (w.debt.debts debtId).amount * (w.debt.debts debtId).penalty / 10000 / 2 ∧
    w.bal (w.debt.debts debtId).token cfg.debtAddr =
      w'.bal (w.debt.debts debtId).token cfg.debtAddr +
        (w.debt.debts debtId).amount * (w.debt.debts debtId).penalty / 10000 / 2 ∧
    w'.debt.debts debtId = { w.debt.debts debtId with liquidated := true } := by
  obtain ⟨hru, hlq, hdl, w1, b1, hl, htr, hs, hb, hdd, hnn⟩ := liquidateDebt_ok h
  obtain ⟨hcz, hla, haa, bx, bY, hbx, hbY, hw1⟩ := liquidateCollateral_ok hl
  have hw1b : w1.bal = bY := by rw [hw1]
  have hbxDebt : bx (w.debt.debts debtId).collateralToken cfg.debtAddr =
      w.bal (w.debt.debts debtId).collateralToken cfg.debtAddr := by
    by_cases hstr : w.staking.yieldStrategy ≠ 0
    · rw [if_pos hstr] at hbx
      exact transferTok_other hbx (Ne.symm hys) (Ne.symm hsa)
    · rw [if_neg hstr, Except.ok.injEq] at hbx
      rw [hbx]
  have hbxPay : ∀ x, bx (w.debt.debts debtId).token x =
      w.bal (w.debt.debts debtId).token x := by
    by_cases hstr : w.staking.yieldStrategy ≠ 0
    · rw [if_pos hstr] at hbx
      exact fun x => transferTok_otherTok hbx htok
    · rw [if_neg hstr, Except.ok.injEq] at hbx
      rw [hbx]
      exact fun x => rfl
  have hbYDebt : bY (w.debt.debts debtId).collateralToken cfg.debtAddr =
      bx (w.debt.debts debtId).collateralToken cfg.debtAddr +
        (w.debt.debts debtId).collateralAmount := transferTok_dest hbY hsa
  have hbYPay : ∀ x, bY (w.debt.debts debtId).token x =
      bx (w.debt.debts debtId).token x := fun x => transferTok_otherTok hbY htok
  have hstk : w'.staking.stakes (w.debt.debts debtId).borrower
      (w.debt.debts debtId).collateralToken =
      { w.staking.stakes (w.debt.debts debtId).borrower
          (w.debt.debts debtId).collateralToken with
        amount := (w.staking.stakes (w.debt.debts debtId).borrower
          (w.debt.debts debtId).collateralToken).amount -
            (w.debt.debts debtId).collateralAmount
        lockedAmount := (w.staking.stakes (w.debt.debts debtId).borrower
          (w.debt.debts debtId).collateralToken).lockedAmount -
            (w.debt.debts debtId).collateralAmount } := by
    rw [hs, hw1]
    dsimp only
    rw [upd2_same]
  have hfail : ∀ now2, ¬ ((w.debt.debts debtId).repaymentDeadline < now2) → ∀ c,
      liquidateDebt cfg c debtId now2 w = .error "Repayment deadline not passed" := by
    intro now2 hnd c
    unfold liquidateDebt
    dsimp only
    rw [if_neg (by simp [hru]), if_neg (by simp [hlq]), if_pos hnd]
  by_cases hsh : (w.debt.debts debtId).amount * (w.debt.debts debtId).penalty / 10000 / 2 > 0
  · rw [if_pos hsh] at htr
    have hmb := transferTok_dest htr (Ne.symm hm)
    have hsb := transferTok_src htr (Ne.symm hm)
    have hcb : ∀ x, b1 (w.debt.debts debtId).collateralToken x =
        w1.bal (w.debt.debts debtId).collateralToken x :=
      fun x => transferTok_otherTok htr (Ne.symm htok)
    refine ⟨hru, hlq, hdl, hfail, by rw [hstk]; dsimp only; omega,
      by rw [hstk]; dsimp only; omega, ?_, ?_, ?_, by rw [hdd, upd1_same]⟩
    · rw [hb, hcb, hw1b, hbYDebt, hbxDebt]
    · rw [hb, hmb, hw1b, hbYPay, hbxPay]
    · rw [hb]
      rw [hw1b, hbYPay, hbxPay] at hsb
      exact hsb
  · rw [if_neg hsh, Except.ok.injEq] at htr
    have hsh0 : (w.debt.debts debtId).amount * (w.debt.debts debtId).penalty / 10000 / 2 = 0 := by
      omega
    refine ⟨hru, hlq, hdl, hfail, by rw [hstk]; dsimp only; omega,
      by rw [hstk]; dsimp only; omega, ?_, ?_, ?_, by rw [hdd, upd1_same]⟩
    · rw [hb, ← htr, hw1b, hbYDebt, hbxDebt]
    · rw [hb, ← htr, hw1b, hbYPay, hsh0, hbxPay]; omega
    · rw [hb, ← htr, hw1b, hbYPay, hsh0, hbxPay]; omega

/-- Witness for C4: concrete liquidation of debt 1 in `wL` after its
deadline, checking scenario D's transfers at the split 5 = 2 + 3. -/
theorem spec_C4_witness :
    wL1.bal 7 2 = wL.bal 7 2 + 150 ∧
    wL1.bal 8 6 = wL.bal 8 6 + 2 ∧
    wL.bal 8 2 = wL1.bal 8 2 + 2 ∧
    (wL.staking.stakes 5 7).amount = (wL1.staking.stakes 5 7).amount + 150 ∧
    (wL.staking.stakes 5 7).lockedAmount = (wL1.staking.stakes 5 7).lockedAmount + 150 ∧
    wL1.debt.debts 1 = { wL.debt.debts 1 with liquidated := true } := by
  have H := spec_C4 cfg0 9 1 600 wL wL1 rfl (by decide) (by decide) (by decide) (by decide)
  exact ⟨H.2.2.2.2.2.2.1, H.2.2.2.2.2.2.2.1, H.2.2.2.2.2.2.2.2.1,
    H.2.2.2.2.1, H.2.2.2.2.2.1, H.2.2.2.2.2.2.2.2.2⟩

/-- C8: a `createDebt` immediately followed by the borrower's `repayDebt`
before the deadline restores the borrower's staked amount, locked amount and
hence free balance for the collateral asset to exactly their pre-createDebt
values, and the repayment pulls exactly `paymentAmount` (no penalty); only
the payment-asset movements of creation (merchant payment and platform fee)
remain. -/
theorem spec_C8 (cfg : Cfg) (w : World)
    (borrower merchant paymentToken paymentAmount collateralToken period now1 now2 : Nat)
    (w1 : World) (id : Nat) (w2 : World)
    (h1 : createDebt cfg borrower merchant paymentToken paymentAmount collateralToken
      period now1 w = .ok (w1, id))
    (h2 : repayDebt cfg borrower id now2 w1 = .ok w2)
    (hpre : ¬ (now1 + period < now2))
    (hbd : borrower ≠ cfg.debtAddr) :
    (w2.staking.stakes borrower collateralToken).amount =
      (w.staking.stakes borrower collateralToken).amount ∧
    (w2.staking.stakes borrower collateralToken).lockedAmount =
      (w.staking.stakes borrower collateralToken).lockedAmount ∧
    (w2.staking.stakes borrower collateralToken).amount -
        (w2.staking.stakes borrower collateralToken).lockedAmount =
      (w.staking.stakes borrower collateralToken).amount -
        (w.staking.stakes borrower collateralToken).lockedAmount ∧
    w1.bal paymentToken borrower = w2.bal paymentToken borrower + paymentAmount ∧
    (w2.debt.debts id).repaid = true := by
  obtain ⟨wa, ba1, ba2, hl, hfd, hfb, htr1, htr2, hr2, hrs, hrb, hrn, hrd⟩ := createDebt_ok h1
  have hid : id = w.debt.nextDebtId := hr2
  have hrs1 : w1.staking = wa.staking := hrs
  have hrd1 : w1.debt.debts = upd1 w.debt.debts w.debt.nextDebtId
      { borrower := borrower, merchant := merchant, token := paymentToken
        amount := paymentAmount, collateralToken := collateralToken
        collateralAmount := paymentAmount * w.staking.collateralRatio / 10000
        repaymentDeadline := now1 + period
        penalty := w.debt.defaultPenalty, repaid := false, liquidated := false } := hrd
  obtain ⟨hcz, hcle, hcam, hwa⟩ := lockCollateral_ok hl
  have hdid : w1.debt.debts id =
      { borrower := borrower, merchant := merchant, token := paymentToken
        amount := paymentAmount, collateralToken := collateralToken
        collateralAmount := paymentAmount * w.staking.collateralRatio / 10000
        repaymentDeadline := now1 + period
        penalty := w.debt.defaultPenalty, repaid := false, liquidated := false } := by
    rw [hrd1, hid, upd1_same]
  obtain ⟨b1, wu, hcb, hru, hlq, htr, hu, hs2, hb2, hdd2, hnn2⟩ := repayDebt_ok h2
  rw [hdid] at htr hu
  dsimp only at htr hu
  rw [if_neg hpre] at htr
  obtain ⟨hcz2, hle2, hwu⟩ := unlockCollateral_ok hu
  have hw1s : w1.staking.stakes borrower collateralToken =
      { w.staking.stakes borrower collateralToken with
        lockedAmount := (w.staking.stakes borrower collateralToken).lockedAmount +
          paymentAmount * w.staking.collateralRatio / 10000 } := by
    rw [hrs1, hwa]
    dsimp only
    rw [upd2_same]
  have hfin : w2.staking.stakes borrower collateralToken =
      { w1.staking.stakes borrower collateralToken with
        lockedAmount := (w1.staking.stakes borrower collateralToken).lockedAmount -
          paymentAmount * w.staking.collateralRatio / 10000 } := by
    rw [hs2, hwu]
    dsimp only
    rw [upd2_same]
  have hsrc := transferTok_src htr hbd
  refine ⟨?_, ?_, ?_, ?_, ?_⟩
  · rw [hfin, hw1s]
  · rw [hfin, hw1s]
    dsimp only
    omega
  · rw [hfin, hw1s]
    dsimp only
    omega
  · rw [hb2]; exact hsrc
  · rw [hdd2, upd1_same]

/-- Witness for C8: the concrete create–repay round trip restores staked and
locked amounts exactly, and the repayment pulls exactly 100. -/
theorem spec_C8_witness :
    (wS2.staking.stakes 5 7).amount = (w0.staking.stakes 5 7).amount ∧
    (wS2.staking.stakes 5 7).lockedAmount = (w0.staking.stakes 5 7).lockedAmount ∧
    wS1.bal 8 5 = wS2.bal 8 5 + 100 ∧
    (wS2.debt.debts 1).repaid = true := by
  have H := spec_C8 cfg0 w0 5 6 8 100 7 86400 100 200 wS1 1 wS2 rfl rfl
    (by decide) (by decide)
  exact ⟨H.1, H.2.1, H.2.2.2.1, H.2.2.2.2⟩
